import Mathlib

/-!
Verification of the group service module
(`src/server/src/api/jobs/instances/AddToGroupCompetitions.js`, second embedded file:
the group service). The JavaScript service functions are shallowly embedded as pure
Lean functions over an explicit relational database state; external collaborator
modules that are not part of the source tree (player service, verification utility,
delta/record/achievement services, the constants modules) are modelled from the
specification and marked as such in their doc comments.
-/

namespace GroupService

deriving instance DecidableEq for Except

/-! ## JavaScript string helpers used by `sanitizeName` -/

/-- One global `String.prototype.replace` pass with a single-character pattern and
replacement, as used by `sanitizeName` for the underscore and hyphen regexes. -/
def replaceAllChar (a b : Char) (l : List Char) : List Char :=
  l.map (fun c => if c = a then b else c)

/-- The `/ +(?= )/g` replacement of `sanitizeName`: every maximal run of spaces is
collapsed to a single space (the regex deletes all spaces that are followed by
another space). -/
def collapseSpaces : List Char → List Char
  | [] => []
  | [c] => [c]
  | c :: d :: rest =>
    if c = ' ' ∧ d = ' ' then collapseSpaces (d :: rest)
    else c :: collapseSpaces (d :: rest)

/-- The whitespace class trimmed by `String.prototype.trim`, restricted to the
characters representable in this embedding. -/
def isJsWhitespace (c : Char) : Bool :=
  c = ' ' || c = '\t' || c = '\n' || c = '\r'

/-- `String.prototype.trim`: drop leading and trailing whitespace. -/
def trimChars (l : List Char) : List Char :=
  ((l.dropWhile isJsWhitespace).reverse.dropWhile isJsWhitespace).reverse

/-- `sanitizeName(name)`: replace underscores and hyphens by spaces, collapse runs
of spaces, and trim the ends. -/
def sanitizeName (s : String) : String :=
  ⟨trimChars (collapseSpaces (replaceAllChar '-' ' ' (replaceAllChar '_' ' ' s.data)))⟩

/-! ## Generic list machinery: the stable comparator sort of `Array.prototype.sort`
and lodash `_.uniqBy`. -/

/-- Insert `x` into `l` before the first element `y` with `le x y`; the inner step of
a stable insertion sort, which models the (ES2019, stable) `Array.prototype.sort`. -/
def insertSorted (le : α → α → Bool) (x : α) : List α → List α
  | [] => [x]
  | y :: ys => if le x y then x :: y :: ys else y :: insertSorted le x ys

/-- Stable insertion sort by a boolean "may precede" relation; models the stable
comparator sort `Array.prototype.sort(cmp)` with `le a b := cmp(a, b) ≤ 0`. -/
def sortBy (le : α → α → Bool) : List α → List α
  | [] => []
  | x :: xs => insertSorted le x (sortBy le xs)

/-- Helper of `uniqBy` carrying the set of keys already seen. -/
def uniqByAux [DecidableEq β] (key : α → β) : List α → List β → List α
  | [], _ => []
  | x :: xs, seen =>
    if key x ∈ seen then uniqByAux key xs seen
    else x :: uniqByAux key xs (key x :: seen)

/-- lodash `_.uniqBy(l, key)`: keeps the first element for each key, in order. -/
def uniqBy [DecidableEq β] (l : List α) (key : α → β) : List α :=
  uniqByAux key l []

/-! ## Lexicographic string comparison, modelling `localeCompare` on the plain
lowercase ASCII strings used as role names. -/

/-- Lexicographic "less or equal" on character lists; models `a.localeCompare(b) <= 0`
for the plain ASCII strings that occur as roles. -/
def strLeB : List Char → List Char → Bool
  | [], _ => true
  | _ :: _, [] => false
  | a :: as, b :: bs => if a < b then true else if b < a then false else strLeB as bs

/-! ## Properties of `sanitizeName` (claim C9) -/

/-- Adjacent-characters relation: not two consecutive spaces. -/
def NDrel (x y : Char) : Prop := ¬(x = ' ' ∧ y = ' ')

/-! ## Data model

The three persisted entities (spec §3) with the fields the service reads, plus a
snapshot table for the overall-experience join of `getMembersList`. List order
models table insertion order; `nextPlayerId` / `nextGroupId` model the
autoincrement sequences. -/

structure Player where
  id : Nat
  username : String
  displayName : String
  type : String
  updatedAt : Int
deriving DecidableEq

structure Group where
  id : Nat
  name : String
  clanChat : Option String
  verificationHash : String
  verified : Bool
  score : Int
  updatedAt : Int
deriving DecidableEq

structure Membership where
  groupId : Nat
  playerId : Nat
  role : String
deriving DecidableEq

structure Snapshot where
  playerId : Nat
  createdAt : Int
  overallExperience : Int
deriving DecidableEq

structure DB where
  groups : List Group
  players : List Player
  memberships : List Membership
  snapshots : List Snapshot
  nextPlayerId : Nat
  nextGroupId : Nat
deriving DecidableEq

structure Pagination where
  limit : Nat
  offset : Nat
deriving DecidableEq

/-! ## JSON-level group records

`format(group)` omits the `verificationHash` key from the serialized record, so
records are modelled as key-value lists to make field presence observable. -/

inductive Val where
  | vInt (n : Int)
  | vStr (s : String)
  | vBool (b : Bool)
  | vNull
deriving DecidableEq

abbrev Rec := List (String × Val)

def optStrVal : Option String → Val
  | some s => Val.vStr s
  | none => Val.vNull

/-- `group.toJSON()`: the serialized group record with all model fields. -/
def Group.toJSON (g : Group) : Rec :=
  [("id", Val.vInt g.id), ("name", Val.vStr g.name), ("clanChat", optStrVal g.clanChat),
   ("verificationHash", Val.vStr g.verificationHash), ("verified", Val.vBool g.verified),
   ("score", Val.vInt g.score), ("updatedAt", Val.vInt g.updatedAt)]

/-- `format(group)`: `_.omit(group.toJSON(), ['verificationHash'])`. -/
def format (g : Group) : Rec :=
  (Group.toJSON g).filter (fun kv => kv.1 != "verificationHash")

def hasKey (r : Rec) (k : String) : Bool := r.any (fun kv => kv.1 == k)

def recLookup (r : Rec) (k : String) : Option Val :=
  (r.find? (fun kv => kv.1 == k)).map (fun kv => kv.2)

/-- The integer stored under a record key, defaulting to 0. -/
def recInt (r : Rec) (k : String) : Int :=
  match recLookup r k with
  | some (Val.vInt n) => n
  | _ => 0

/-! ## External collaborators modelled from the spec -/

/-- Modelled from the spec: player usernames are canonical lowercase-normalized
(`playerService.standardize`, module not under src); modelled as lowercasing. -/
def standardize (u : String) : String := ⟨u.data.map Char.toLower⟩

/-- Modelled from the spec: `playerService.sanitize` for clan-chat names (module not
under src); modelled as the same lowercase normalization. -/
def playerSanitize (s : String) : String := ⟨s.data.map Char.toLower⟩

/-- Modelled from the spec: `playerService.isValidUsername` (module not under src) —
1-12 characters, no special characters, no space at the beginning or end. -/
def isValidUsername (u : String) : Bool :=
  decide (1 ≤ u.length) && decide (u.length ≤ 12) &&
  u.data.all (fun c => c.isAlphanum || c = ' ') &&
  (match u.data.head? with | some c => c != ' ' | none => true) &&
  (match u.data.getLast? with | some c => c != ' ' | none => true)

/-- Modelled from the spec: the verification code/hash pair generated by
`generateVerification` (util/verification, not under src); the stored hash is
modelled as the code itself, and `verifyCode` compares them. -/
def verifyCode (hash code : String) : Bool := hash == code

/-- The fresh player row created for an unknown username. -/
def newPlayer (db : DB) (u : String) : Player :=
  { id := db.nextPlayerId, username := standardize u, displayName := u,
    type := "unknown", updatedAt := 0 }

/-- Appends a fresh player row for the username and bumps the id sequence. -/
def createPlayer (db : DB) (u : String) : DB :=
  { db with players := db.players ++ [newPlayer db u], nextPlayerId := db.nextPlayerId + 1 }

/-- Modelled from the spec: `playerService.findAllOrCreate` (module not under src) —
finds each username's player row by standardized username or creates a fresh one;
returns the players in input order together with the updated database. -/
def findAllOrCreate (db : DB) : List String → (List Player × DB)
  | [] => ([], db)
  | u :: us =>
    match db.players.find? (fun p => p.username == standardize u) with
    | some p => (p :: (findAllOrCreate db us).1, (findAllOrCreate db us).2)
    | none =>
      (newPlayer db u :: (findAllOrCreate (createPlayer db u) us).1,
        (findAllOrCreate (createPlayer db u) us).2)

/-- Modelled from the spec: `playerService.findAll` (module not under src) — the
existing player rows for the given usernames. -/
def findAll (db : DB) (usernames : List String) : List Player :=
  usernames.filterMap (fun u => db.players.find? (fun p => p.username == standardize u))

/-- Modelled from the spec: the fixed enumerated period set of
`../../constants/periods` (not under src); only membership in the set matters. -/
def PERIODS : List String := ["day", "week", "month", "year"]

/-- Modelled from the spec: the fixed enumerated metric set of
`../../constants/metrics` (not under src); only membership in the set matters. -/
def ALL_METRICS : List String :=
  ["overall", "attack", "defence", "strength", "hitpoints", "ranged", "prayer", "magic"]

/-! ## Query operations -/

/-- `attachMembersCount(groups)`: inserts a `memberCount` field (membership count
for the group's id, defaulting to 0) into every group record. -/
def attachMembersCount (db : DB) (groups : List Rec) : List Rec :=
  groups.map (fun g =>
    g ++ [("memberCount",
      Val.vInt ((db.memberships.filter
        (fun m => Val.vInt (Int.ofNat m.groupId) == (recLookup g "id").getD Val.vNull)).length))])

/-- Case-insensitive substring match of the sanitized needle against the group
name — the `iLike` filter of `list`. -/
def groupMatchesName (needle : Option String) (g : Group) : Bool :=
  match needle with
  | none => true
  | some n =>
    decide ((standardize (sanitizeName n)).data <:+: (standardize g.name).data)

/-- `list(name, pagination)`: groups partially matching the name, ordered by score
descending then id ascending, paginated, with member counts attached. -/
def list (db : DB) (name : Option String) (pg : Pagination) : List Rec :=
  let matching := db.groups.filter (groupMatchesName name)
  let sorted := sortBy
    (fun a b => decide (b.score < a.score) || (a.score == b.score && decide (a.id ≤ b.id)))
    matching
  let paged := (sorted.drop pg.offset).take pg.limit
  attachMembersCount db (paged.map format)

/-- `findForPlayer(playerId, pagination)`: the source extracts the unique groups
from the player's memberships, slices the page, THEN sorts by score descending,
formats and attaches member counts. -/
def findForPlayer (db : DB) (playerId : Nat) (pg : Pagination) : Except String (List Rec) :=
  if playerId = 0 then Except.error "Invalid player id." else
  let memberships := db.memberships.filter (fun m => m.playerId == playerId)
  let withGroups := memberships.filterMap
    (fun m => (db.groups.find? (fun g => g.id == m.groupId)).map (fun g => (m, g)))
  let uniq := uniqBy withGroups (fun mg => mg.2.id)
  let sliced := (uniq.drop pg.offset).take pg.limit
  let groups := sortBy (fun a b => decide (b.score ≤ a.score)) (sliced.map (fun mg => mg.2))
  Except.ok (attachMembersCount db (groups.map format))

/-- The claim's reading of `findForPlayer`: deduplicate, sort by score descending,
and apply the offset/limit slicing AFTER the sort. -/
def findForPlayerSpec (db : DB) (playerId : Nat) (pg : Pagination) : Except String (List Rec) :=
  if playerId = 0 then Except.error "Invalid player id." else
  let memberships := db.memberships.filter (fun m => m.playerId == playerId)
  let withGroups := memberships.filterMap
    (fun m => (db.groups.find? (fun g => g.id == m.groupId)).map (fun g => (m, g)))
  let uniq := uniqBy withGroups (fun mg => mg.2.id)
  let sorted := sortBy (fun a b => decide (b.score ≤ a.score)) (uniq.map (fun mg => mg.2))
  let sliced := (sorted.drop pg.offset).take pg.limit
  Except.ok (attachMembersCount db (sliced.map format))

/-- `view(id)`: single formatted group lookup. -/
def view (db : DB) (id : Nat) : Except String Rec :=
  if id = 0 then Except.error "Invalid group id." else
  match db.groups.find? (fun g => g.id == id) with
  | none => Except.error ("Group of id " ++ toString id ++ " was not found.")
  | some g => Except.ok (format g)

/-- `findOne(groupId)`: returns the raw group model (no formatting). -/
def findOne (db : DB) (groupId : Nat) : Option Group :=
  db.groups.find? (fun g => g.id == groupId)

/-- `getMonthlyTopPlayer(groupId)`: resolves the member id list and delegates to
`deltaService.getGroupLeaderboard` (parameter `delegate`); returns null (`none`)
when the group has no members. -/
def getMonthlyTopPlayer (db : DB)
    (delegate : String → String → List Nat → Pagination → List Nat)
    (groupId : Nat) : Except String (Option Nat) :=
  if groupId = 0 then Except.error "Invalid group id." else
  let memberIds := (db.memberships.filter (fun m => m.groupId == groupId)).map
    (fun m => m.playerId)
  if memberIds.length = 0 then Except.ok none
  else Except.ok (delegate "overall" "month" memberIds { limit := 1, offset := 0 }).head?

/-- `getDeltas(groupId, period, metric, pagination)`: validates period and metric,
requires a non-empty member list, then delegates to the delta service. -/
def getDeltas (db : DB)
    (delegate : String → String → List Nat → Pagination → List Nat)
    (groupId : Nat) (period metric : String) (pg : Pagination) :
    Except String (List Nat) :=
  if groupId = 0 then Except.error "Invalid group id." else
  if period = "" ∨ ¬ period ∈ PERIODS then
    Except.error ("Invalid period: " ++ period ++ ".") else
  if metric = "" ∨ ¬ metric ∈ ALL_METRICS then
    Except.error ("Invalid metric: " ++ metric ++ ".") else
  let memberIds := (db.memberships.filter (fun m => m.groupId == groupId)).map
    (fun m => m.playerId)
  if memberIds.length = 0 then Except.error "That group has no members."
  else Except.ok (delegate metric period memberIds pg)

structure Achievement where
  playerId : Nat
  type : String
deriving DecidableEq

/-- `getAchievements(groupId, pagination)`: requires a non-empty membership list,
delegates to the achievement service, and joins each achievement to its player
(the `_.keyBy` member-map lookup is modelled as a partial join). -/
def getAchievements (db : DB) (delegate : List Nat → Pagination → List Achievement)
    (groupId : Nat) (pg : Pagination) : Except String (List (Achievement × Player)) :=
  if groupId = 0 then Except.error "Invalid group id." else
  let memberships := db.memberships.filter (fun m => m.groupId == groupId)
  if memberships.length = 0 then Except.error "That group has no members."
  else
    let members := memberships.filterMap
      (fun m => db.players.find? (fun p => p.id == m.playerId))
    let memberIds := members.map (fun p => p.id)
    let achievements := delegate memberIds pg
    Except.ok (achievements.filterMap
      (fun a => (members.find? (fun p => p.id == a.playerId)).map (fun p => (a, p))))

/-- `getRecords(groupId, metric, period, pagination)`: validates period and metric,
requires a non-empty membership list, then delegates to the record service. -/
def getRecords (db : DB)
    (delegate : String → String → List Nat → Pagination → List Nat)
    (groupId : Nat) (metric period : String) (pg : Pagination) :
    Except String (List Nat) :=
  if groupId = 0 then Except.error "Invalid group id." else
  if period = "" ∨ ¬ period ∈ PERIODS then
    Except.error ("Invalid period: " ++ period ++ ".") else
  if metric = "" ∨ ¬ metric ∈ ALL_METRICS then
    Except.error ("Invalid metric: " ++ metric ++ ".") else
  let memberships := db.memberships.filter (fun m => m.groupId == groupId)
  if memberships.length = 0 then Except.error "That group has no members."
  else Except.ok (delegate metric period (memberships.map (fun m => m.playerId)) pg)

/-! ## `getMembersList` and its latest-snapshot query -/

structure MemberListEntry where
  id : Nat
  username : String
  displayName : String
  type : String
  updatedAt : Int
  role : String
  overallExperience : Int
deriving DecidableEq

def maxCreatedAt : List Snapshot → Option Int
  | [] => none
  | s :: rest => some (rest.foldl (fun m t => max m t.createdAt) s.createdAt)

/-- The raw latest-snapshot query of `getMembersList`: the `overallExperience` of a
player's most recent snapshot (among rows sharing the maximal `createdAt`, the
last one, as `_.keyBy` keeps the last row); `none` when the player has no
snapshots. -/
def latestOverallExperience (db : DB) (pid : Nat) : Option Int :=
  let snaps := db.snapshots.filter (fun s => s.playerId == pid)
  match maxCreatedAt snaps with
  | none => none
  | some d => ((snaps.filter (fun s => s.createdAt == d)).getLast?).map
      (fun s => s.overallExperience)

/-- The comparator `a.role.localeCompare(b.role) <= 0` (lexicographic on the plain
ASCII role strings). -/
def roleLe (a b : String) : Bool := strLeB a.data b.data

/-- `getMembersList(id)`: joins each member to their latest snapshot's overall
experience (0 when the player has no snapshot rows) and sorts by role. -/
def getMembersList (db : DB) (id : Nat) : Except String (List MemberListEntry) :=
  if id = 0 then Except.error "Invalid group id." else
  match db.groups.find? (fun g => g.id == id) with
  | none => Except.error ("Group of id " ++ toString id ++ " was not found.")
  | some _ =>
    let memberships := (db.memberships.filter (fun m => m.groupId == id)).filterMap
      (fun m => (db.players.find? (fun p => p.id == m.playerId)).map (fun p => (p, m.role)))
    if memberships.length = 0 then Except.ok []
    else
      Except.ok (sortBy (fun a b => roleLe a.role b.role)
        (memberships.map (fun pr =>
          { id := pr.1.id, username := pr.1.username, displayName := pr.1.displayName,
            type := pr.1.type, updatedAt := pr.1.updatedAt, role := pr.2,
            overallExperience := (latestOverallExperience db pr.1.id).getD 0 })))

/-! ## `calculateScore` and the JavaScript arithmetic of its average -/

inductive JSVal where
  | num (x : Int)
  | str (s : String)
deriving DecidableEq

def jsValToString : JSVal → String
  | JSVal.num x => toString x
  | JSVal.str s => s

/-- JavaScript `acc + cur` where `cur` is a plain object: `ToPrimitive(cur)` is the
string "[object Object]", so both number+object and string+object concatenate. -/
def jsAddObject (acc : JSVal) : JSVal :=
  JSVal.str (jsValToString acc ++ "[object Object]")

inductive JSNum where
  | nan
  | posInf
  | negInf
  | fin (q : Rat)
deriving DecidableEq

/-- JavaScript division `v / n` for the values arising in `calculateScore`:
`ToNumber` of the non-numeric strings produced by summing member objects is NaN;
0/0 is NaN and x/0 is a signed infinity. -/
def jsDivByLength (v : JSVal) (n : Nat) : JSNum :=
  match v with
  | JSVal.str _ => JSNum.nan
  | JSVal.num x =>
    if n = 0 then (if x = 0 then JSNum.nan else if 0 < x then JSNum.posInf else JSNum.negInf)
    else JSNum.fin ((x : Rat) / (n : Rat))

/-- JavaScript `v >= c` on the embedded numeric values; false for NaN. -/
def JSNum.geInt : JSNum → Int → Bool
  | JSNum.nan, _ => false
  | JSNum.posInf, _ => true
  | JSNum.negInf, _ => false
  | JSNum.fin q, c => decide ((c : Rat) ≤ q)

/-- `members.reduce((acc, cur) => acc + cur, 0) / members.length`: the accumulator
adds the member OBJECTS themselves, not their experience fields. -/
def averageOverallExp (members : List MemberListEntry) : JSNum :=
  jsDivByLength (members.foldl (fun acc _cur => jsAddObject acc) (JSVal.num 0)) members.length

structure Competition where
  startsAt : Int
  endsAt : Int
deriving DecidableEq

/-- The scoring body of `calculateScore`, after the members list and the group's
competitions have been fetched; `now` is the evaluation instant. -/
def computeScore (group : Group) (members : List MemberListEntry)
    (competitions : List Competition) (now : Int) : Int :=
  let avg := averageOverallExp members
  if members.length = 0 then 0 else
  (if 1 ≤ (members.filter (fun m => m.role == "leader")).length then 30 else 0) +
  (if 10 ≤ members.length then 20 else 0) +
  (if 50 ≤ members.length then 40 else 0) +
  (if avg.geInt 30000000 then 30 else 0) +
  (if avg.geInt 100000000 then 60 else 0) +
  (if (match group.clanChat with
       | some s => decide (0 < s.length)
       | none => false) then 50 else 0) +
  (if group.verified then 100 else 0) +
  (if 1 ≤ (competitions.filter
      (fun c => decide (c.startsAt ≤ now) && decide (now ≤ c.endsAt))).length
    then 50 else 0) +
  (if 1 ≤ (competitions.filter (fun c => decide (now ≤ c.startsAt))).length then 30 else 0)

/-- `calculateScore(group)`: fetches the group's member list (via `getMembersList`)
and the group's competitions (`competitionService.findForGroup`, passed as the
already-fetched list) and applies the weighted-sum heuristic. -/
def calculateScore (db : DB) (competitions : List Competition) (now : Int)
    (group : Group) : Except String Int :=
  (getMembersList db group.id).map (fun members => computeScore group members competitions now)

/-! ## Mutation operations -/

/-- One entry of the `members` argument array: `{username, role}` where the role
key may be absent. -/
structure InputMember where
  username : String
  role : Option String
deriving DecidableEq

/-- `m.role || 'member'`: absent and empty-string (falsy) roles default. -/
def jsRoleOr : Option String → String
  | some s => if s = "" then "member" else s
  | none => "member"

/-- `members[i].role || 'member'` — the role picked POSITIONALLY at index `i` of the
original (non-deduplicated) members array. -/
def roleAtIdx (members : List InputMember) (i : Nat) : String :=
  match members.get? i with
  | some m => jsRoleOr m.role
  | none => "member"

/-- The membership row built by `setMembers` for the indexed player `ip` of the
deduplicated list: `{playerId: p.id, groupId, role: members[i].role || 'member'}`. -/
def mkMembership (gid : Nat) (members : List InputMember) (ip : Nat × Player) : Membership :=
  { groupId := gid, playerId := ip.2.id, role := roleAtIdx members ip.1 }

/-- A formatted member as returned by `getMembers` / `setMembers` / `addMembers`:
the player record with the membership's role attached. -/
structure MemberRec where
  id : Nat
  username : String
  displayName : String
  type : String
  updatedAt : Int
  role : String
deriving DecidableEq

def samePair (a b : Membership) : Bool :=
  a.groupId == b.groupId && a.playerId == b.playerId

/-- Insert a membership row unless a row with the same (groupId, playerId) primary
key already exists. -/
def insertIfAbsent (tbl : List Membership) (row : Membership) : List Membership :=
  if tbl.any (fun r => samePair r row) then tbl else tbl ++ [row]

/-- `Membership.bulkCreate(rows, {ignoreDuplicates: true})`: rows conflicting with
the composite primary key — including earlier rows of the same batch — are
skipped. -/
def bulkCreateIgnoreDuplicates (tbl : List Membership) (rows : List Membership) :
    List Membership :=
  rows.foldl insertIfAbsent tbl

/-- The database state after `setMembers` destroys the group's membership rows and
bulk-creates the new ones. -/
def setMembersDB (dbF : DB) (gid : Nat) (rows : List Membership) : DB :=
  let destroyed := dbF.memberships.filter (fun m => m.groupId != gid)
  { dbF with memberships := bulkCreateIgnoreDuplicates destroyed rows }

/-- The join step of `getMembers`: a membership row joined to its player record,
formatted as the player plus the membership's role. -/
def joinMember (ps : List Player) (m : Membership) : Option MemberRec :=
  (ps.find? (fun p => p.id == m.playerId)).map
    (fun p => { id := p.id, username := p.username, displayName := p.displayName,
                type := p.type, updatedAt := p.updatedAt, role := m.role })

/-- `group.getMembers()` / `getMembers(groupId)`: the group's memberships joined to
their players, each formatted as the player record plus the membership role. -/
def getMembers (db : DB) (groupId : Nat) : List MemberRec :=
  (db.memberships.filter (fun m => m.groupId == groupId)).filterMap (joinMember db.players)

/-- `setMembers(group, members)`: destructive replace — finds or creates the
players of the case-insensitively deduplicated username list, deletes the group's
memberships, bulk-creates the new rows (roles read positionally from the original
array), and returns the formatted member list. -/
def setMembers (db : DB) (group : Option Group) (members : List InputMember) :
    Except String (DB × List MemberRec) :=
  match group with
  | none => Except.error "Invalid group."
  | some g =>
    let uniqueNames := uniqBy (members.map (fun m => m.username)) standardize
    let found := findAllOrCreate db uniqueNames
    let newMemberships := found.1.enum.map (mkMembership g.id members)
    let db2 := setMembersDB found.2 g.id newMemberships
    Except.ok (db2, getMembers db2 g.id)

structure CreateResult where
  group : Rec
  members : List MemberRec
deriving DecidableEq

/-- The bad-request message for invalid usernames (shared by `create` and `edit`). -/
def invalidUsernamesMsg (invalid : List String) : String :=
  toString invalid.length ++ " Invalid usernames: Names must be 1-12 characters long, " ++
  "contain no special characters, and/or contain no space at the beginning or end of the name."

/-- `create(name, clanChat, members)`: validates uniqueness and the member list,
generates a verification pair (the plaintext `verificationCode` is an input of the
embedding), persists the group, and optionally seeds members via `setMembers`. -/
def create (db : DB) (name : String) (clanChat : Option String)
    (members : Option (List InputMember)) (verificationCode : String) :
    Except String (DB × CreateResult) :=
  if name = "" then Except.error "Invalid group name." else
  let sanitizedName := sanitizeName name
  let sanitizedClanChat :=
    match clanChat with
    | some s => if s.length ≠ 0 then some (playerSanitize s) else none
    | none => none
  if (db.groups.find? (fun g => g.name == sanitizedName)).isSome then
    Except.error ("Group name \x27" ++ sanitizedName ++ "\x27 is already taken.") else
  let missingKey : Bool :=
    match members with
    | some ms => (ms.filter (fun m => m.username != "")).length != ms.length
    | none => false
  if missingKey then
    Except.error "Invalid members list. Each array element must have a username key." else
  let inputNames : List String :=
    match members with
    | some ms => ms.map (fun m => m.username)
    | none => []
  let invalidUsernames : List String := inputNames.filter (fun u => !isValidUsername u)
  let hasInvalid : Bool :=
    match members with
    | some ms => decide (0 < ms.length) && decide (0 < invalidUsernames.length)
    | none => false
  if hasInvalid then
    Except.error (invalidUsernamesMsg invalidUsernames) else
  let g : Group :=
    { id := db.nextGroupId, name := sanitizedName, clanChat := sanitizedClanChat,
      verificationHash := verificationCode, verified := false, score := 0, updatedAt := 0 }
  let db1 := { db with groups := db.groups ++ [g], nextGroupId := db.nextGroupId + 1 }
  match members with
  | none => Except.ok (db1, { group := format g, members := [] })
  | some ms =>
    match setMembers db1 (some g) ms with
    | Except.error e => Except.error e
    | Except.ok (db2, newMembers) =>
      Except.ok (db2, { group := format g, members := newMembers })

structure EditResult where
  group : Rec
  members : List MemberRec
deriving DecidableEq

/-- JavaScript truthiness of an optional string argument: absent and empty are
falsy. -/
def optTruthy : Option String → Bool
  | none => false
  | some s => s != ""

/-- The update step of `edit`: `group.update({name: name && sanitizeName(name),
clanChat: clanChat && clanChat.length ? sanitize(clanChat) : null})` — an undefined
`name` is skipped by the ORM, while the clan chat value (possibly null) is always
written. -/
def editedGroup (group : Group) (name clanChat : Option String) : Group :=
  let sanitizedName : Option String :=
    match name with
    | none => none
    | some s => if s = "" then some "" else some (sanitizeName s)
  { group with
    name := sanitizedName.getD group.name,
    clanChat :=
      match clanChat with
      | some t => if t.length ≠ 0 then some (playerSanitize t) else none
      | none => none }

/-- `edit(id, name, clanChat, verificationCode, members)`: verification-gated;
replaces members wholesale if provided; runs the update step when a name or clan
chat is given. -/
def edit (db : DB) (id : Nat) (name clanChat : Option String) (verificationCode : String)
    (members : Option (List InputMember)) : Except String (DB × EditResult) :=
  if id = 0 then Except.error "Invalid group id." else
  if verificationCode = "" then Except.error "Invalid verification code." else
  if !optTruthy name && members.isNone && !optTruthy clanChat then
    Except.error "You must either include a new name, clan chat or members list." else
  let nameConflict : Bool :=
    match name with
    | some s =>
      s != "" &&
        (match db.groups.find? (fun g => g.name == sanitizeName s) with
         | some mg => mg.id != id
         | none => false)
    | none => false
  if nameConflict then
    Except.error ("Group name \x27" ++ sanitizeName (name.getD "") ++ "\x27 is already taken.")
  else
  match db.groups.find? (fun g => g.id == id) with
  | none => Except.error ("Group of id " ++ toString id ++ " was not found.")
  | some group =>
  if !verifyCode group.verificationHash verificationCode then
    Except.error "Incorrect verification code." else
  match members with
  | some ms =>
    if 0 < ((ms.map (fun m => m.username)).filter (fun u => !isValidUsername u)).length then
      Except.error (invalidUsernamesMsg
        ((ms.map (fun m => m.username)).filter (fun u => !isValidUsername u)))
    else
      (match setMembers db (some group) ms with
       | Except.error e => Except.error e
       | Except.ok (db1, groupMembers) =>
        if optTruthy name || optTruthy clanChat then
          let g' := editedGroup group name clanChat
          let db2 := { db1 with
            groups := db1.groups.map (fun g => if g.id == group.id then g' else g) }
          Except.ok (db2, { group := format g', members := groupMembers })
        else Except.ok (db1, { group := format group, members := groupMembers }))
  | none =>
    let groupMembers := getMembers db group.id
    if optTruthy name || optTruthy clanChat then
      let g' := editedGroup group name clanChat
      let db2 := { db with
        groups := db.groups.map (fun g => if g.id == group.id then g' else g) }
      Except.ok (db2, { group := format g', members := groupMembers })
    else Except.ok (db, { group := format group, members := groupMembers })

/-- `destroy(id, verificationCode)`: verification-gated; deletes the group and
cascades its memberships; returns the deleted group's name. -/
def destroy (db : DB) (id : Nat) (verificationCode : String) : Except String (DB × String) :=
  if id = 0 then Except.error "Invalid group id." else
  if verificationCode = "" then Except.error "Invalid verification code." else
  match db.groups.find? (fun g => g.id == id) with
  | none => Except.error ("Group of id " ++ toString id ++ " was not found.")
  | some group =>
  if !verifyCode group.verificationHash verificationCode then
    Except.error "Incorrect verification code." else
  Except.ok
    ({ db with
        groups := db.groups.filter (fun g => g.id != id),
        memberships := db.memberships.filter (fun m => m.groupId != id) },
      group.name)

/-- `group.addMembers(players)` (Sequelize belongsToMany add): inserts a membership
row for each given player not already associated; the through `role` column
defaults to "member". -/
def addAssociations (tbl : List Membership) (gid : Nat) (ps : List Player) :
    List Membership :=
  ps.foldl (fun t p => insertIfAbsent t { groupId := gid, playerId := p.id, role := "member" }) tbl

/-- `group.addMembers(leaders, {through: {role: "leader"}})`: for players already
associated the through attribute is updated; otherwise a row with the given role
is inserted. -/
def upsertRole (tbl : List Membership) (gid pid : Nat) (role : String) : List Membership :=
  if tbl.any (fun r => r.groupId == gid && r.playerId == pid) then
    tbl.map (fun r => if r.groupId == gid && r.playerId == pid then { r with role := role } else r)
  else tbl ++ [{ groupId := gid, playerId := pid, role := role }]

/-- `addMembers(id, verificationCode, members)`: verification-gated; rejects when
every given username is already a member; re-adds leader-flagged entries forcing
the leader role; bumps the group's `updatedAt`. -/
def addMembers (db : DB) (now : Int) (id : Nat) (verificationCode : String)
    (members : List InputMember) : Except String (DB × List MemberRec) :=
  if id = 0 then Except.error "Invalid group id." else
  if verificationCode = "" then Except.error "Invalid verification code." else
  if members.length = 0 then Except.error "Invalid members list." else
  if (members.filter (fun m => m.username != "")).length ≠ members.length then
    Except.error "Invalid members list. Each array element must have a username key." else
  match db.groups.find? (fun g => g.id == id) with
  | none => Except.error ("Group of id " ++ toString id ++ " was not found.")
  | some group =>
  if !verifyCode group.verificationHash verificationCode then
    Except.error "Incorrect verification code." else
  let existingIds := (getMembers db group.id).map (fun p => p.id)
  let found := findAllOrCreate db (members.map (fun m => m.username))
  let newPlayers := found.1.filter (fun p => !(existingIds.contains p.id))
  if newPlayers.length = 0 then Except.error "All players given are already members." else
  let db2 := { found.2 with memberships := addAssociations found.2.memberships group.id newPlayers }
  let leaderUsernames := (members.filter (fun m => m.role == some "leader")).map
    (fun m => standardize m.username)
  let db3 :=
    if 0 < leaderUsernames.length then
      let leaders := (getMembers db2 group.id).filter
        (fun m => leaderUsernames.contains m.username)
      let tbl := leaders.foldl (fun t m => upsertRole t group.id m.id "leader") db2.memberships
      { db2 with memberships := tbl }
    else db2
  let groups4 := db3.groups.map
    (fun g => if g.id == group.id then { g with updatedAt := now } else g)
  let db4 := { db3 with groups := groups4 }
  Except.ok (db4, getMembers db4 group.id)

/-- `removeMembers(id, verificationCode, usernames)`: verification-gated; rejects
when no given username is a tracked player or none was a member; deletes the
matching membership rows and bumps the group's `updatedAt`. -/
def removeMembers (db : DB) (now : Int) (id : Nat) (verificationCode : String)
    (usernames : List String) : Except String (DB × Nat) :=
  if id = 0 then Except.error "Invalid group id." else
  if verificationCode = "" then Except.error "Invalid verification code." else
  if usernames.length = 0 then Except.error "Invalid members list." else
  match db.groups.find? (fun g => g.id == id) with
  | none => Except.error ("Group of id " ++ toString id ++ " was not found.")
  | some group =>
  if !verifyCode group.verificationHash verificationCode then
    Except.error "Incorrect verification code." else
  let playersToRemove := findAll db usernames
  if playersToRemove.length = 0 then Except.error "No valid tracked players were given." else
  let removedCount := (db.memberships.filter
    (fun m => m.groupId == id && playersToRemove.any (fun p => p.id == m.playerId))).length
  if removedCount = 0 then Except.error "None of the players given were members of that group." else
  let remaining := db.memberships.filter
    (fun m => !(m.groupId == id && playersToRemove.any (fun p => p.id == m.playerId)))
  let db1 := { db with memberships := remaining }
  let groups2 := db1.groups.map
    (fun g => if g.id == group.id then { g with updatedAt := now } else g)
  let db2 := { db1 with groups := groups2 }
  Except.ok (db2, removedCount)

structure ChangeRoleResult where
  player : MemberRec
  newRole : String
  oldRole : String
deriving DecidableEq

/-- The `Membership.findOne` of `changeRole`: the first membership row of the group
whose joined player carries the standardized username. -/
def membershipLookup (db : DB) (id : Nat) (username : String) :
    Option (Membership × Player) :=
  ((db.memberships.filter (fun m => m.groupId == id)).filterMap
    (fun m =>
      match db.players.find? (fun p => p.id == m.playerId) with
      | some p => if p.username == standardize username then some (m, p) else none
      | none => none)).head?

/-- `changeRole(id, username, role, verificationCode)`: verification-gated; fails if
the target is not a member or already holds the role; otherwise updates the
membership row in place, bumps the group's `updatedAt`, and returns the player
with both old and new roles. -/
def changeRole (db : DB) (now : Int) (id : Nat) (username role : String)
    (verificationCode : String) : Except String (DB × ChangeRoleResult) :=
  if id = 0 then Except.error "Invalid group id." else
  if username = "" then Except.error "Invalid username." else
  if role = "" then Except.error "Invalid group role." else
  if verificationCode = "" then Except.error "Invalid verification code." else
  match db.groups.find? (fun g => g.id == id) with
  | none => Except.error ("Group of id " ++ toString id ++ " was not found.")
  | some group =>
  if !verifyCode group.verificationHash verificationCode then
    Except.error "Incorrect verification code." else
  match membershipLookup db id username with
  | none =>
    Except.error ("\x27" ++ username ++ "\x27 is not a member of " ++ group.name ++ ".")
  | some mp =>
    if mp.1.role == role then
      Except.error ("\x27" ++ username ++ "\x27 already has the role of " ++ role ++ ".")
    else
      let updated := db.memberships.map
        (fun r => if r.groupId == mp.1.groupId && r.playerId == mp.1.playerId then
            { r with role := role } else r)
      let db1 := { db with memberships := updated }
      let groups2 := db1.groups.map
        (fun g => if g.id == group.id then { g with updatedAt := now } else g)
      let db2 := { db1 with groups := groups2 }
      Except.ok (db2,
        { player := { id := mp.2.id, username := mp.2.username,
                      displayName := mp.2.displayName, type := mp.2.type,
                      updatedAt := mp.2.updatedAt, role := role },
          newRole := role, oldRole := mp.1.role })

/-! ## Database well-formedness predicates -/

/-- The membership invariant of the spec: each (groupId, playerId) pair appears at
most once in the Membership table. -/
abbrev uniqPairs (db : DB) : Prop :=
  (db.memberships.map (fun m => (m.groupId, m.playerId))).Nodup

/-- Well-formedness of the Player table: unique ids, unique usernames, ids below
the autoincrement counter. -/
def WFplayers (db : DB) : Prop :=
  (db.players.map (fun p => p.id)).Nodup ∧
  (db.players.map (fun p => p.username)).Nodup ∧
  ∀ p ∈ db.players, p.id < db.nextPlayerId

/-! ## The claim's specification of `setMembers` followed by `getMembers` -/

/-- The role given FOR a username in the input (first case-insensitive match),
default "member" — the pairing asserted by the claim. -/
def specRoleFor (members : List InputMember) (u : String) : String :=
  match members.find? (fun m => standardize m.username == standardize u) with
  | some m => jsRoleOr m.role
  | none => "member"

/-- The claim's description of `setMembers` + `getMembers`: the deduplicated
usernames, each paired with the role given for that username. -/
def setThenGetSpecPairs (members : List InputMember) : List (String × String) :=
  (uniqBy (members.map (fun m => m.username)) standardize).map
    (fun u => (standardize u, specRoleFor members u))

/-! ## Concrete instances used as witnesses and counterexamples -/

def c1Group : Group :=
  { id := 1, name := "g", clanChat := some "cc", verificationHash := "h",
    verified := true, score := 0, updatedAt := 0 }

/-- A database with one group of 50 members (one leader), every member holding a
snapshot of 200,000,000 overall experience. -/
def c1db : DB :=
  { groups := [c1Group],
    players := (List.range 50).map (fun i =>
      { id := i + 1, username := "p" ++ toString (i + 1), displayName := "p",
        type := "unknown", updatedAt := 0 }),
    memberships := (List.range 50).map (fun i =>
      { groupId := 1, playerId := i + 1, role := if i = 0 then "leader" else "member" }),
    snapshots := (List.range 50).map (fun i =>
      { playerId := i + 1, createdAt := 5, overallExperience := 200000000 }),
    nextPlayerId := 51, nextGroupId := 2 }

/-- One currently-ongoing competition (at instant 0) and one upcoming competition. -/
def c1Comps : List Competition :=
  [{ startsAt := -5, endsAt := 5 }, { startsAt := 10, endsAt := 20 }]

def c1Members : List MemberListEntry :=
  match getMembersList c1db 1 with
  | Except.ok l => l
  | Except.error _ => []

def c1emptyGroup : Group :=
  { id := 1, name := "e", clanChat := none, verificationHash := "h",
    verified := false, score := 0, updatedAt := 0 }

def c1emptyDB : DB :=
  { groups := [c1emptyGroup], players := [], memberships := [], snapshots := [],
    nextPlayerId := 1, nextGroupId := 2 }

/-- Two groups with scores 10 and 20; one player belonging to both, the lower-score
group's membership row first. -/
def c2db : DB :=
  { groups :=
      [{ id := 1, name := "g1", clanChat := none, verificationHash := "h",
         verified := false, score := 10, updatedAt := 0 },
       { id := 2, name := "g2", clanChat := none, verificationHash := "h",
         verified := false, score := 20, updatedAt := 0 }],
    players := [{ id := 1, username := "a", displayName := "a", type := "unknown", updatedAt := 0 }],
    memberships := [{ groupId := 1, playerId := 1, role := "member" },
                    { groupId := 2, playerId := 1, role := "member" }],
    snapshots := [], nextPlayerId := 2, nextGroupId := 3 }

def c2page : List Rec := (findForPlayer c2db 1 { limit := 5, offset := 0 }).toOption.getD []

def c3viewRec : Rec := (view c2db 1).toOption.getD []

def c3rawGroup : Group :=
  (findOne c2db 1).getD
    { id := 0, name := "", clanChat := none, verificationHash := "", verified := false,
      score := 0, updatedAt := 0 }

/-- A delta/record leaderboard delegate returning no rows. -/
def nullLeaderboard : String → String → List Nat → Pagination → List Nat :=
  fun _ _ _ _ => []

/-- An achievement delegate returning no rows. -/
def nullAchievements : List Nat → Pagination → List Achievement :=
  fun _ _ => []

/-- One group with no members at all. -/
def c4db : DB :=
  { groups := [{ id := 1, name := "g", clanChat := none, verificationHash := "h",
                 verified := false, score := 0, updatedAt := 0 }],
    players := [], memberships := [], snapshots := [], nextPlayerId := 1, nextGroupId := 2 }

def c5g : Group :=
  { id := 1, name := "g", clanChat := none, verificationHash := "h", verified := false,
    score := 0, updatedAt := 0 }

def c5db : DB :=
  { groups := [c5g], players := [], memberships := [], snapshots := [],
    nextPlayerId := 1, nextGroupId := 2 }

/-- Two case-insensitive duplicates of "Alpha" followed by "Beta" with an explicit
leader role: after deduplication the positional role lookup slips by one. -/
def c5input : List InputMember :=
  [{ username := "Alpha", role := some "leader" },
   { username := "alpha", role := none },
   { username := "Beta", role := some "leader" }]

def c5result : DB × List MemberRec :=
  (setMembers c5db (some c5g) c5input).toOption.getD (c5db, [])

def c5pairs : List (String × String) :=
  c5result.2.map (fun m => (m.username, m.role))

def c7g : Group :=
  { id := 1, name := "g", clanChat := some "cc", verificationHash := "c", verified := false,
    score := 0, updatedAt := 0 }

def c7db : DB :=
  { groups := [c7g], players := [], memberships := [], snapshots := [],
    nextPlayerId := 1, nextGroupId := 2 }

def c7result : DB × EditResult :=
  (edit c7db 1 (some "NewName") none "c" none).toOption.getD (c7db, { group := [], members := [] })

def c8group : Group :=
  { id := 1, name := "g", clanChat := none, verificationHash := "c", verified := true,
    score := 0, updatedAt := 0 }

def c8db : DB :=
  { groups := [c8group],
    players := [{ id := 1, username := "bob", displayName := "Bob", type := "unknown", updatedAt := 0 }],
    memberships := [{ groupId := 1, playerId := 1, role := "member" }],
    snapshots := [], nextPlayerId := 2, nextGroupId := 2 }

def c8pair : Membership × Player :=
  ({ groupId := 1, playerId := 1, role := "member" },
   { id := 1, username := "bob", displayName := "Bob", type := "unknown", updatedAt := 0 })

/-- A group of two members with unsorted roles, one member having no snapshots. -/
def c10db : DB :=
  { groups := [{ id := 1, name := "g", clanChat := none, verificationHash := "h",
                 verified := false, score := 0, updatedAt := 0 }],
    players := [{ id := 1, username := "z", displayName := "z", type := "unknown", updatedAt := 0 },
                { id := 2, username := "y", displayName := "y", type := "unknown", updatedAt := 0 }],
    memberships := [{ groupId := 1, playerId := 1, role := "member" },
                    { groupId := 1, playerId := 2, role := "leader" }],
    snapshots := [{ playerId := 1, createdAt := 3, overallExperience := 777 }],
    nextPlayerId := 3, nextGroupId := 2 }

def c10list : List MemberListEntry := (getMembersList c10db 1).toOption.getD []

def w6setResult : DB × List MemberRec :=
  (setMembers c8db (some c8group)
    [{ username := "Alice", role := some "leader" }, { username := "bob", role := none }]).toOption.getD
    (c8db, [])

/-! ## Theorems -/

theorem recInt_score_format (g : Group) (x : String × Val) :
    recInt (format g ++ [x]) "score" = g.score := rfl

theorem hasKey_format_hash (g : Group) : hasKey (format g) "verificationHash" = false := rfl

theorem hasKey_toJSON_hash (g : Group) : hasKey (Group.toJSON g) "verificationHash" = true := rfl

theorem hasKey_append (r : Rec) (x : String × Val) (k : String) :
    hasKey (r ++ [x]) k = (hasKey r k || (x.1 == k)) := by
  simp [hasKey, List.any_append]

theorem mem_insertSorted {le : α → α → Bool} {x y : α} {l : List α} :
    y ∈ insertSorted le x l ↔ y = x ∨ y ∈ l := by
  induction l with
  | nil => simp [insertSorted]
  | cons a as ih =>
    by_cases h : le x a = true
    · simp [insertSorted, h]
    · simp only [insertSorted, if_neg h, List.mem_cons, ih]
      tauto

theorem mem_sortBy {le : α → α → Bool} {y : α} {l : List α} :
    y ∈ sortBy le l ↔ y ∈ l := by
  induction l with
  | nil => simp [sortBy]
  | cons a as ih => simp [sortBy, mem_insertSorted, ih]

theorem length_insertSorted (le : α → α → Bool) (x : α) (l : List α) :
    (insertSorted le x l).length = l.length + 1 := by
  induction l with
  | nil => rfl
  | cons a as ih =>
    by_cases h : le x a = true
    · simp [insertSorted, h]
    · simp [insertSorted, h, ih]

theorem length_sortBy (le : α → α → Bool) (l : List α) :
    (sortBy le l).length = l.length := by
  induction l with
  | nil => rfl
  | cons a as ih => simp [sortBy, length_insertSorted, ih]

theorem chain'_insertSorted {le : α → α → Bool}
    (total : ∀ a b, le a b = true ∨ le b a = true) (x : α) :
    ∀ {l : List α}, List.Chain' (fun a b => le a b = true) l →
      List.Chain' (fun a b => le a b = true) (insertSorted le x l)
  | [], _ => List.chain'_singleton x
  | y :: ys, h => by
    by_cases hxy : le x y = true
    · simp only [insertSorted, if_pos hxy]
      exact List.Chain'.cons hxy h
    · have hyx : le y x = true := (total x y).resolve_left hxy
      simp only [insertSorted, if_neg hxy]
      cases ys with
      | nil => exact List.chain'_pair.mpr hyx
      | cons z zs =>
        have htail : List.Chain' (fun a b => le a b = true) (insertSorted le x (z :: zs)) :=
          chain'_insertSorted total x h.tail
        by_cases hxz : le x z = true
        · simp only [insertSorted, if_pos hxz] at htail ⊢
          exact List.Chain'.cons hyx htail
        · simp only [insertSorted, if_neg hxz] at htail ⊢
          have hyz : le y z = true := (List.chain'_cons.mp h).1
          exact List.Chain'.cons hyz htail

theorem chain'_sortBy {le : α → α → Bool}
    (total : ∀ a b, le a b = true ∨ le b a = true) (l : List α) :
    List.Chain' (fun a b => le a b = true) (sortBy le l) := by
  induction l with
  | nil => exact List.chain'_nil
  | cons a as ih => exact chain'_insertSorted total a ih

theorem strLeB_total : ∀ a b : List Char, strLeB a b = true ∨ strLeB b a = true
  | [], _ => Or.inl rfl
  | _ :: _, [] => Or.inr rfl
  | a :: as, b :: bs => by
    by_cases hab : a < b
    · exact Or.inl (by simp [strLeB, hab])
    · by_cases hba : b < a
      · exact Or.inr (by simp [strLeB, hba])
      · rcases strLeB_total as bs with h | h
        · exact Or.inl (by simp [strLeB, hab, hba, h])
        · exact Or.inr (by simp [strLeB, hab, hba, h])

theorem trimChars_eq_rdropWhile (l : List Char) :
    trimChars l = (l.dropWhile isJsWhitespace).rdropWhile isJsWhitespace := rfl

theorem dropWhile_head_false {p : α → Bool} :
    ∀ {l : List α} {a : α} {as : List α}, l.dropWhile p = a :: as → p a = false
  | [], _, _, h => by simp [List.dropWhile] at h
  | x :: xs, a, as, h => by
    by_cases hx : p x = true
    · rw [List.dropWhile_cons_of_pos hx] at h
      exact dropWhile_head_false h
    · rw [List.dropWhile_cons_of_neg hx] at h
      cases h
      simpa using hx

theorem dropWhile_trimChars (l : List Char) :
    (trimChars l).dropWhile isJsWhitespace = trimChars l := by
  rcases hp : trimChars l with _ | ⟨a, as⟩
  · simp
  · obtain ⟨r, hr⟩ := List.rdropWhile_prefix isJsWhitespace (l.dropWhile isJsWhitespace)
    rw [← trimChars_eq_rdropWhile, hp] at hr
    have ha : isJsWhitespace a = false := dropWhile_head_false (l := l) (by rw [← hr]; rfl)
    rw [List.dropWhile_cons_of_neg (by simp [ha])]

theorem trimChars_idem (l : List Char) : trimChars (trimChars l) = trimChars l := by
  rw [trimChars_eq_rdropWhile (trimChars l), dropWhile_trimChars,
    trimChars_eq_rdropWhile l, List.rdropWhile_idempotent]

theorem collapseSpaces_cons_head :
    ∀ (b : Char) (rest : List Char), ∃ t, collapseSpaces (b :: rest) = b :: t
  | _, [] => ⟨[], rfl⟩
  | b, r :: rs => by
    by_cases h : b = ' ' ∧ r = ' '
    · obtain ⟨t, ht⟩ := collapseSpaces_cons_head r rs
      exact ⟨t, by rw [collapseSpaces, if_pos h, ht, h.1, h.2]⟩
    · exact ⟨collapseSpaces (r :: rs), by rw [collapseSpaces, if_neg h]⟩

theorem chain'_ND_collapseSpaces : ∀ l : List Char, List.Chain' NDrel (collapseSpaces l)
  | [] => List.chain'_nil
  | [c] => List.chain'_singleton c
  | a :: b :: rest => by
    by_cases h : a = ' ' ∧ b = ' '
    · rw [collapseSpaces, if_pos h]
      exact chain'_ND_collapseSpaces (b :: rest)
    · rw [collapseSpaces, if_neg h]
      obtain ⟨t, ht⟩ := collapseSpaces_cons_head b rest
      have h2 := chain'_ND_collapseSpaces (b :: rest)
      rw [ht] at h2 ⊢
      exact List.chain'_cons.mpr ⟨h, h2⟩

theorem collapseSpaces_eq_self : ∀ {l : List Char}, List.Chain' NDrel l → collapseSpaces l = l
  | [], _ => rfl
  | [_], _ => rfl
  | a :: b :: rest, h => by
    have hab : NDrel a b := (List.chain'_cons.mp h).1
    rw [collapseSpaces, if_neg hab, collapseSpaces_eq_self (List.chain'_cons.mp h).2]

theorem chain'_ND_trimChars {l : List Char} (h : List.Chain' NDrel l) :
    List.Chain' NDrel (trimChars l) := by
  rw [trimChars_eq_rdropWhile]
  exact List.Chain'.prefix (h.suffix (List.dropWhile_suffix _)) (List.rdropWhile_prefix _ _)

theorem mem_collapseSpaces : ∀ {l : List Char} {c : Char}, c ∈ collapseSpaces l → c ∈ l
  | [], _, h => by simp [collapseSpaces] at h
  | [_], c, h => by simpa [collapseSpaces] using h
  | a :: b :: rest, c, h => by
    by_cases hab : a = ' ' ∧ b = ' '
    · rw [collapseSpaces, if_pos hab] at h
      exact List.mem_cons_of_mem a (mem_collapseSpaces h)
    · rw [collapseSpaces, if_neg hab] at h
      rcases List.mem_cons.mp h with h | h
      · exact h ▸ List.mem_cons_self _ _
      · exact List.mem_cons_of_mem a (mem_collapseSpaces h)

theorem mem_trimChars {l : List Char} {c : Char} (h : c ∈ trimChars l) : c ∈ l := by
  rw [trimChars_eq_rdropWhile] at h
  exact (List.dropWhile_suffix _).subset ((List.rdropWhile_prefix _ _).subset h)

theorem mem_replaceAllChar {a b c : Char} {l : List Char}
    (h : c ∈ replaceAllChar a b l) : c = b ∨ (c ∈ l ∧ c ≠ a) := by
  simp only [replaceAllChar, List.mem_map] at h
  obtain ⟨d, hd, hcd⟩ := h
  by_cases hda : d = a
  · left; rw [← hcd, if_pos hda]
  · right
    rw [← hcd, if_neg hda]
    exact ⟨hd, hda⟩

theorem replaceAllChar_eq_self {a b : Char} {l : List Char} (h : ∀ c ∈ l, c ≠ a) :
    replaceAllChar a b l = l := by
  have : ∀ c ∈ l, (if c = a then b else c) = id c := by
    intro c hc
    rw [if_neg (h c hc)]
    rfl
  rw [replaceAllChar, List.map_congr_left this, List.map_id]

theorem sanitizeName_data (s : String) :
    (sanitizeName s).data
      = trimChars (collapseSpaces (replaceAllChar '-' ' ' (replaceAllChar '_' ' ' s.data))) := rfl

theorem sanitizeName_chars {s : String} {c : Char} (h : c ∈ (sanitizeName s).data) :
    c ≠ '_' ∧ c ≠ '-' := by
  rw [sanitizeName_data] at h
  have h1 := mem_collapseSpaces (mem_trimChars h)
  rcases mem_replaceAllChar h1 with h2 | ⟨h2, hnd⟩
  · subst h2; exact ⟨by decide, by decide⟩
  · rcases mem_replaceAllChar h2 with h3 | ⟨_, hnu⟩
    · subst h3; exact ⟨by decide, by decide⟩
    · exact ⟨hnu, hnd⟩

/-- Claim C9: `sanitizeName` is idempotent — sanitizing an already-sanitized name
yields the same string. -/
theorem claim9_sanitizeName_idempotent (s : String) :
    sanitizeName (sanitizeName s) = sanitizeName s := by
  have hu : replaceAllChar '_' ' ' (sanitizeName s).data = (sanitizeName s).data :=
    replaceAllChar_eq_self (fun c hc => (sanitizeName_chars hc).1)
  have hh : replaceAllChar '-' ' ' (sanitizeName s).data = (sanitizeName s).data :=
    replaceAllChar_eq_self (fun c hc => (sanitizeName_chars hc).2)
  have hnd : List.Chain' NDrel (sanitizeName s).data := by
    rw [sanitizeName_data]
    exact chain'_ND_trimChars (chain'_ND_collapseSpaces _)
  have hcol : collapseSpaces (sanitizeName s).data = (sanitizeName s).data :=
    collapseSpaces_eq_self hnd
  have htr : trimChars (sanitizeName s).data = (sanitizeName s).data := by
    rw [sanitizeName_data]
    exact trimChars_idem _
  show (⟨trimChars (collapseSpaces (replaceAllChar '-' ' '
      (replaceAllChar '_' ' ' (sanitizeName s).data)))⟩ : String) = sanitizeName s
  rw [hu, hh, hcol, htr]

/-! ### Claim C10: `getMembersList` — zero experience without snapshots; role-sorted -/

theorem latestOverallExperience_none (db : DB) (pid : Nat)
    (h : db.snapshots.filter (fun s => s.playerId == pid) = []) :
    latestOverallExperience db pid = none := by
  simp [latestOverallExperience, h, maxCreatedAt]

/-- Claim C10: in the list returned by `getMembersList`, every member whose player
has no snapshot rows has `overallExperience = 0`, and the list is sorted in
ascending lexicographic order of the role string (the `localeCompare` comparator
modelled lexicographically). -/
theorem claim10_getMembersList (db : DB) (id : Nat) (l : List MemberListEntry)
    (h : getMembersList db id = Except.ok l) :
    (∀ m ∈ l, db.snapshots.filter (fun s => s.playerId == m.id) = [] →
      m.overallExperience = 0) ∧
    List.Chain' (fun a b => roleLe a.role b.role = true) l := by
  rw [getMembersList] at h
  split at h
  · exact Except.noConfusion h
  split at h
  · exact Except.noConfusion h
  simp only [] at h
  split at h
  · cases h
    exact ⟨by simp, List.chain'_nil⟩
  · cases h
    constructor
    · intro m hm hsnap
      have hm' := mem_sortBy.mp hm
      obtain ⟨pr, _, rfl⟩ := List.mem_map.mp hm'
      show (latestOverallExperience db pr.1.id).getD 0 = 0
      rw [latestOverallExperience_none db pr.1.id hsnap]
      rfl
    · exact @chain'_sortBy MemberListEntry (fun a b => roleLe a.role b.role)
        (fun a b => strLeB_total a.role.data b.role.data) _

/-- Witness for C10 at a concrete database: two members with unsorted roles, one of
them snapshot-less. -/
theorem claim10_witness :
    (∀ m ∈ c10list, c10db.snapshots.filter (fun s => s.playerId == m.id) = [] →
      m.overallExperience = 0) ∧
    List.Chain' (fun a b => roleLe a.role b.role = true) c10list :=
  claim10_getMembersList c10db 1 c10list rfl

/-! ### Claim C2: `findForPlayer` pagination versus sorting -/

/-- Counterexample to claim C2: for the player in groups of scores 10 and 20 (the
lower-score membership row first), page (limit 1, offset 0) returned by the code
differs from the sort-then-paginate reading of the spec. -/
theorem claim2_counterexample :
    findForPlayer c2db 1 { limit := 1, offset := 0 } ≠
      findForPlayerSpec c2db 1 { limit := 1, offset := 0 } := by decide

/-- Amended claim C2: `findForPlayer` deduplicates by group id and slices the page
BEFORE sorting; each returned page is internally ordered by score descending (but
consecutive pages do not enumerate the player's groups in global score order). -/
theorem claim2_page_sorted (db : DB) (playerId : Nat) (pg : Pagination) (l : List Rec)
    (h : findForPlayer db playerId pg = Except.ok l) :
    List.Chain' (fun a b => recInt b "score" ≤ recInt a "score") l := by
  rw [findForPlayer] at h
  split at h
  · exact Except.noConfusion h
  · cases h
    rw [attachMembersCount, List.map_map, List.chain'_map]
    refine (@chain'_sortBy Group (fun a b => decide (b.score ≤ a.score)) ?_ _).imp ?_
    · intro a b
      rcases Int.le_total b.score a.score with h | h
      · exact Or.inl (decide_eq_true h)
      · exact Or.inr (decide_eq_true h)
    · intro a b hab
      show recInt (format b ++ _) "score" ≤ recInt (format a ++ _) "score"
      rw [recInt_score_format, recInt_score_format]
      exact of_decide_eq_true hab

/-- Witness for the amended C2 at a concrete database. -/
theorem claim2_witness :
    List.Chain' (fun a b => recInt b "score" ≤ recInt a "score") c2page :=
  claim2_page_sorted c2db 1 { limit := 5, offset := 0 } c2page rfl

/-! ### Claim C4: validation failures of the leaderboard operations -/

/-- Counterexample to claim C4: on a group with an empty member list,
`getMonthlyTopPlayer` does NOT fail — it returns null (`ok none`). -/
theorem claim4_counterexample :
    c4db.memberships.filter (fun m => m.groupId == 1) = [] ∧
    getMonthlyTopPlayer c4db nullLeaderboard 1 = Except.ok none :=
  ⟨rfl, rfl⟩

/-- Amended claim C4: `getDeltas`, `getRecords` and `getAchievements` fail with a
validation error on an empty member list, and `getDeltas`/`getRecords` fail when
the period or metric is outside the accepted sets; `getMonthlyTopPlayer` instead
returns null on an empty member list. -/
theorem claim4_amended (db : DB)
    (dl : String → String → List Nat → Pagination → List Nat)
    (da : List Nat → Pagination → List Achievement)
    (groupId : Nat) (period metric : String) (pg : Pagination)
    (hid : groupId ≠ 0) :
    ((db.memberships.filter (fun m => m.groupId == groupId)) = [] →
      getMonthlyTopPlayer db dl groupId = Except.ok none) ∧
    (period ∉ PERIODS → ∃ e, getDeltas db dl groupId period metric pg = Except.error e) ∧
    (metric ∉ ALL_METRICS → ∃ e, getDeltas db dl groupId period metric pg = Except.error e) ∧
    ((db.memberships.filter (fun m => m.groupId == groupId)) = [] →
      ∃ e, getDeltas db dl groupId period metric pg = Except.error e) ∧
    (period ∉ PERIODS → ∃ e, getRecords db dl groupId metric period pg = Except.error e) ∧
    (metric ∉ ALL_METRICS → ∃ e, getRecords db dl groupId metric period pg = Except.error e) ∧
    ((db.memberships.filter (fun m => m.groupId == groupId)) = [] →
      ∃ e, getRecords db dl groupId metric period pg = Except.error e) ∧
    ((db.memberships.filter (fun m => m.groupId == groupId)) = [] →
      ∃ e, getAchievements db da groupId pg = Except.error e) := by
  refine ⟨?_, ?_, ?_, ?_, ?_, ?_, ?_, ?_⟩
  · intro hf
    simp [getMonthlyTopPlayer, hid, hf]
  · intro hp
    rw [getDeltas]
    split
    · exact ⟨_, rfl⟩
    · rw [if_pos (Or.inr hp)]
      exact ⟨_, rfl⟩
  · intro hm
    rw [getDeltas]
    split
    · exact ⟨_, rfl⟩
    · split
      · exact ⟨_, rfl⟩
      · rw [if_pos (Or.inr hm)]
        exact ⟨_, rfl⟩
  · intro hf
    rw [getDeltas]
    split
    · exact ⟨_, rfl⟩
    · split
      · exact ⟨_, rfl⟩
      · split
        · exact ⟨_, rfl⟩
        · refine ⟨"That group has no members.", ?_⟩
          simp [hf]
  · intro hp
    rw [getRecords]
    split
    · exact ⟨_, rfl⟩
    · rw [if_pos (Or.inr hp)]
      exact ⟨_, rfl⟩
  · intro hm
    rw [getRecords]
    split
    · exact ⟨_, rfl⟩
    · split
      · exact ⟨_, rfl⟩
      · rw [if_pos (Or.inr hm)]
        exact ⟨_, rfl⟩
  · intro hf
    rw [getRecords]
    split
    · exact ⟨_, rfl⟩
    · split
      · exact ⟨_, rfl⟩
      · split
        · exact ⟨_, rfl⟩
        · refine ⟨"That group has no members.", ?_⟩
          simp [hf]
  · intro hf
    rw [getAchievements]
    split
    · exact ⟨_, rfl⟩
    · refine ⟨"That group has no members.", ?_⟩
      simp [hf]

/-- Witness for the amended C4 at a concrete empty group. -/
theorem claim4_witness :
    getMonthlyTopPlayer c4db nullLeaderboard 1 = Except.ok none ∧
    (∃ e, getDeltas c4db nullLeaderboard 1 "century" "overall"
      { limit := 20, offset := 0 } = Except.error e) ∧
    (∃ e, getDeltas c4db nullLeaderboard 1 "week" "zzz"
      { limit := 20, offset := 0 } = Except.error e) ∧
    (∃ e, getRecords c4db nullLeaderboard 1 "overall" "week"
      { limit := 20, offset := 0 } = Except.error e) ∧
    (∃ e, getAchievements c4db nullAchievements 1
      { limit := 20, offset := 0 } = Except.error e) :=
  ⟨(claim4_amended c4db nullLeaderboard nullAchievements 1 "century" "overall"
      { limit := 20, offset := 0 } (by decide)).1 rfl,
   (claim4_amended c4db nullLeaderboard nullAchievements 1 "century" "overall"
      { limit := 20, offset := 0 } (by decide)).2.1 (by decide),
   (claim4_amended c4db nullLeaderboard nullAchievements 1 "week" "zzz"
      { limit := 20, offset := 0 } (by decide)).2.2.1 (by decide),
   (claim4_amended c4db nullLeaderboard nullAchievements 1 "week" "overall"
      { limit := 20, offset := 0 } (by decide)).2.2.2.2.2.2.1 rfl,
   (claim4_amended c4db nullLeaderboard nullAchievements 1 "week" "overall"
      { limit := 20, offset := 0 } (by decide)).2.2.2.2.2.2.2 rfl⟩

/-! ### Claim C3: `verificationHash` exposure -/

/-- Counterexample to claim C3: `findOne` returns the raw group model, whose record
still carries the `verificationHash` field (with the stored secret). -/
theorem claim3_counterexample :
    (findOne c2db 1).isSome = true ∧
    hasKey (Group.toJSON c3rawGroup) "verificationHash" = true ∧
    c3rawGroup.verificationHash = "h" := by decide

theorem mem_attachMembersCount {db : DB} {gs : List Rec} {r : Rec}
    (h : r ∈ attachMembersCount db gs) : ∃ g ∈ gs, ∃ v, r = g ++ [("memberCount", v)] := by
  rw [attachMembersCount] at h
  obtain ⟨g, hg, rfl⟩ := List.mem_map.mp h
  exact ⟨g, hg, _, rfl⟩

theorem hasKey_hash_of_attach_format {db : DB} {gs : List Group} {r : Rec}
    (h : r ∈ attachMembersCount db (gs.map format)) :
    hasKey r "verificationHash" = false := by
  obtain ⟨g0, hg0, v, rfl⟩ := mem_attachMembersCount h
  obtain ⟨g, _, rfl⟩ := List.mem_map.mp hg0
  rw [hasKey_append, hasKey_format_hash]
  rfl

/-- Amended claim C3: `list`, `findForPlayer`, `view`, `create` and `edit` all emit
group records without the `verificationHash` key, but `findOne` returns the raw
group model including its `verificationHash`. -/
theorem claim3_amended (db : DB) (nm : Option String) (pg : Pagination) (pid gid : Nat)
    (cname : String) (ccc : Option String) (cms : Option (List InputMember)) (code : String)
    (ename eclan : Option String) (emems : Option (List InputMember)) :
    (∀ r ∈ list db nm pg, hasKey r "verificationHash" = false) ∧
    (∀ l, findForPlayer db pid pg = Except.ok l →
      ∀ r ∈ l, hasKey r "verificationHash" = false) ∧
    (∀ r, view db gid = Except.ok r → hasKey r "verificationHash" = false) ∧
    (∀ db' res, create db cname ccc cms code = Except.ok (db', res) →
      hasKey res.group "verificationHash" = false) ∧
    (∀ db' res, edit db gid ename eclan code emems = Except.ok (db', res) →
      hasKey res.group "verificationHash" = false) ∧
    (∀ g, findOne db gid = some g → hasKey (Group.toJSON g) "verificationHash" = true) := by
  refine ⟨?_, ?_, ?_, ?_, ?_, ?_⟩
  · intro r hr
    exact hasKey_hash_of_attach_format hr
  · intro l h r hr
    rw [findForPlayer] at h
    split at h
    · exact Except.noConfusion h
    · cases h
      exact hasKey_hash_of_attach_format hr
  · intro r h
    rw [view] at h
    split at h
    · exact Except.noConfusion h
    split at h
    · exact Except.noConfusion h
    · cases h
      exact hasKey_format_hash _
  · intro db' res h
    rw [create.eq_def] at h
    split at h
    · exact Except.noConfusion h
    simp only [] at h
    split at h
    · exact Except.noConfusion h
    split at h
    · exact Except.noConfusion h
    split at h
    · exact Except.noConfusion h
    split at h
    · cases h
      exact hasKey_format_hash _
    split at h
    · exact Except.noConfusion h
    · cases h
      exact hasKey_format_hash _
  · intro db' res h
    rw [edit.eq_def] at h
    split at h
    · exact Except.noConfusion h
    split at h
    · exact Except.noConfusion h
    split at h
    · exact Except.noConfusion h
    simp only [] at h
    split at h
    · exact Except.noConfusion h
    split at h
    · exact Except.noConfusion h
    split at h
    · exact Except.noConfusion h
    split at h
    · split at h
      · exact Except.noConfusion h
      split at h
      · exact Except.noConfusion h
      split at h
      · cases h
        exact hasKey_format_hash _
      · cases h
        exact hasKey_format_hash _
    · split at h
      · cases h
        exact hasKey_format_hash _
      · cases h
        exact hasKey_format_hash _
  · intro g h
    exact hasKey_toJSON_hash g

/-- Witness for the amended C3 at a concrete database. -/
theorem claim3_witness :
    hasKey c3viewRec "verificationHash" = false ∧
    hasKey (Group.toJSON c3rawGroup) "verificationHash" = true :=
  ⟨(claim3_amended c2db none { limit := 20, offset := 0 } 1 1 "n" none none "c"
      none none none).2.2.1 c3viewRec rfl,
   (claim3_amended c2db none { limit := 20, offset := 0 } 1 1 "n" none none "c"
      none none none).2.2.2.2.2 c3rawGroup rfl⟩

/-! ### Claim C1: `calculateScore` -/

theorem foldl_jsAddObject_str :
    ∀ (l : List MemberListEntry) (s0 : String),
      ∃ s, l.foldl (fun acc _cur => jsAddObject acc) (JSVal.str s0) = JSVal.str s
  | [], s0 => ⟨s0, rfl⟩
  | _ :: t, s0 => by
    rw [List.foldl_cons]
    exact foldl_jsAddObject_str t (s0 ++ "[object Object]")

/-- On any non-empty members list the JavaScript average is NaN: the reduce sums
member objects, producing a non-numeric string. -/
theorem averageOverallExp_nan {ms : List MemberListEntry} (h : ms ≠ []) :
    averageOverallExp ms = JSNum.nan := by
  obtain ⟨a, t, rfl⟩ := List.exists_cons_of_ne_nil h
  rw [averageOverallExp, List.foldl_cons]
  obtain ⟨s, hs⟩ := foldl_jsAddObject_str t ("0" ++ "[object Object]")
  rw [show (jsAddObject (JSVal.num 0)) = JSVal.str ("0" ++ "[object Object]") from rfl, hs]
  rfl

theorem one_le_length_of_mem {a : α} {l : List α} (h : a ∈ l) : 1 ≤ l.length :=
  List.length_pos.mpr (List.ne_nil_of_mem h)

/-- Amended claim C1: the empty case scores 0 as claimed, but the rich case scores
320, not 390 — the +20 tier for ≥10 members also applies, and the two
average-experience bonuses never apply because the source averages member objects
(NaN) instead of their experience values. -/
theorem claim1_amended (db : DB) (group : Group) (comps : List Competition) (now : Int)
    (ms : List MemberListEntry) (hms : getMembersList db group.id = Except.ok ms) :
    ((ms = [] ∧ group.clanChat = none ∧ group.verified = false ∧ comps = []) →
      calculateScore db comps now group = Except.ok 0) ∧
    ((1 ≤ (ms.filter (fun m => m.role == "leader")).length ∧
      50 ≤ ms.length ∧
      (100000000 : Int) * ms.length ≤ (ms.map (fun m => m.overallExperience)).sum ∧
      (∃ s, group.clanChat = some s ∧ 0 < s.length) ∧
      group.verified = true ∧
      (∃ c ∈ comps, c.startsAt ≤ now ∧ now ≤ c.endsAt) ∧
      (∃ c ∈ comps, now ≤ c.startsAt)) →
      calculateScore db comps now group = Except.ok 320) := by
  constructor
  · rintro ⟨rfl, hcc, hver, rfl⟩
    rw [calculateScore, hms]
    show Except.ok (computeScore group [] [] now) = Except.ok 0
    rw [computeScore]
    simp
  · rintro ⟨hleader, h50, _havg, ⟨cs, hcs, hcslen⟩, hver, ⟨c1, hc1, hc1s, hc1e⟩, ⟨c2, hc2, hc2s⟩⟩
    rw [calculateScore, hms]
    show Except.ok (computeScore group ms comps now) = Except.ok 320
    have hne : ms ≠ [] := by
      intro hnil
      rw [hnil] at h50
      exact absurd h50 (by decide)
    rw [computeScore]
    simp only [averageOverallExp_nan hne]
    have h10 : 10 ≤ ms.length := le_trans (by decide) h50
    have hlen0 : ¬ ms.length = 0 := by
      intro h0
      rw [h0] at h50
      exact absurd h50 (by decide)
    have hongoing : 1 ≤ (comps.filter
        (fun c => decide (c.startsAt ≤ now) && decide (now ≤ c.endsAt))).length :=
      one_le_length_of_mem (List.mem_filter.mpr ⟨hc1, by simp [hc1s, hc1e]⟩)
    have hupcoming : 1 ≤ (comps.filter (fun c => decide (now ≤ c.startsAt))).length :=
      one_le_length_of_mem (List.mem_filter.mpr ⟨hc2, by simp [hc2s]⟩)
    rw [if_neg hlen0, if_pos hleader, if_pos h10, if_pos h50, if_pos hongoing, if_pos hupcoming,
      hcs, hver]
    simp [hcslen, JSNum.geInt]

/-- Counterexample to claim C1: a group satisfying every premise of the rich case
(50 members, one leader, 200m average experience, clan chat, verified, one ongoing
and one upcoming competition) scores 320, not 390. -/
theorem claim1_counterexample :
    (1 ≤ (c1Members.filter (fun m => m.role == "leader")).length ∧
      50 ≤ c1Members.length ∧
      (100000000 : Int) * c1Members.length ≤
        (c1Members.map (fun m => m.overallExperience)).sum) ∧
    calculateScore c1db c1Comps 0 c1Group = Except.ok 320 ∧
    (Except.ok 320 : Except String Int) ≠ Except.ok 390 := by
  exact ⟨by decide, by decide, by decide⟩

/-- Witness for the amended C1: the empty case at a concrete empty group and the
rich case at the concrete 50-member group. -/
theorem claim1_witness :
    calculateScore c1emptyDB [] 0 c1emptyGroup = Except.ok 0 ∧
    calculateScore c1db c1Comps 0 c1Group = Except.ok 320 :=
  ⟨(claim1_amended c1emptyDB c1emptyGroup [] 0 [] rfl).1 ⟨rfl, rfl, rfl, rfl⟩,
   (claim1_amended c1db c1Group c1Comps 0 c1Members rfl).2
     ⟨by decide, by decide, by decide, ⟨"cc", rfl, by decide⟩, rfl,
      ⟨{ startsAt := -5, endsAt := 5 }, by decide, by decide, by decide⟩,
      ⟨{ startsAt := 10, endsAt := 20 }, by decide, by decide⟩⟩⟩

/-! ### Claim C7: the frame of `edit` -/

/-- Counterexample to claim C7: editing only the name (clanChat not provided) wipes
the stored clan chat — the update writes `clanChat: null`. -/
theorem claim7_counterexample :
    c7db.groups.map (fun g => g.clanChat) = [some "cc"] ∧
    edit c7db 1 (some "NewName") none "c" none = Except.ok c7result ∧
    c7result.1.groups.map (fun g => g.clanChat) = [none] :=
  ⟨rfl, rfl, rfl⟩

/-- Amended claim C7: a successful `edit` without a members argument leaves the
membership rows unchanged; a name that is not provided is retained and a provided
name is sanitized and stored; a provided clan chat is sanitized and stored, but
when the clan chat is NOT provided the update still writes null, so the previous
clan chat is lost whenever a name is provided without one. -/
theorem claim7_amended (db : DB) (id : Nat) (name clanChat : Option String)
    (code : String) (db' : DB) (res : EditResult)
    (hn : name ≠ some "") (hc : clanChat ≠ some "")
    (h : edit db id name clanChat code none = Except.ok (db', res)) :
    db'.memberships = db.memberships ∧
    ∃ group, db.groups.find? (fun g => g.id == id) = some group ∧
      db'.groups = db.groups.map
        (fun g => if g.id == group.id then editedGroup group name clanChat else g) ∧
      (name = none → (editedGroup group name clanChat).name = group.name) ∧
      (∀ s, name = some s → (editedGroup group name clanChat).name = sanitizeName s) ∧
      (∀ t, clanChat = some t →
        (editedGroup group name clanChat).clanChat = some (playerSanitize t)) ∧
      (clanChat = none → (editedGroup group name clanChat).clanChat = none) := by
  have hname1 : ∀ group : Group, name = none →
      (editedGroup group name clanChat).name = group.name := by
    rintro group rfl
    rfl
  have hname2 : ∀ (group : Group) (s : String), name = some s →
      (editedGroup group name clanChat).name = sanitizeName s := by
    rintro group s rfl
    have hs : s ≠ "" := fun hs0 => hn (by rw [hs0])
    simp [editedGroup, hs]
  have hcc1 : ∀ (group : Group) (t : String), clanChat = some t →
      (editedGroup group name clanChat).clanChat = some (playerSanitize t) := by
    rintro group t rfl
    have ht : t ≠ "" := fun ht0 => hc (by rw [ht0])
    have htlen : t.length ≠ 0 := fun h0 => ht (String.ext (List.length_eq_zero.mp h0))
    simp [editedGroup, htlen]
  have hcc2 : ∀ group : Group, clanChat = none →
      (editedGroup group name clanChat).clanChat = none := by
    rintro group rfl
    rfl
  rw [edit.eq_def] at h
  split at h
  · exact Except.noConfusion h
  split at h
  · exact Except.noConfusion h
  split at h
  · exact Except.noConfusion h
  simp only [] at h
  split at h
  · exact Except.noConfusion h
  split at h
  · exact Except.noConfusion h
  split at h
  · exact Except.noConfusion h
  rename_i hnot3 _ _ group hfind _
  split at h
  · cases h
    exact ⟨rfl, group, hfind, rfl, hname1 group, fun s hs => hname2 group s hs,
      fun t ht => hcc1 group t ht, hcc2 group⟩
  · rename_i hnor
    exfalso
    have hboth : optTruthy name = false ∧ optTruthy clanChat = false := by
      simpa using hnor
    rw [hboth.1, hboth.2] at hnot3
    simp at hnot3

/-- Witness for the amended C7 at the concrete name-only edit. -/
theorem claim7_witness :
    c7result.1.memberships = c7db.memberships ∧
    ∃ group, c7db.groups.find? (fun g => g.id == 1) = some group ∧
      c7result.1.groups = c7db.groups.map
        (fun g => if g.id == group.id then editedGroup group (some "NewName") none else g) ∧
      (some "NewName" = none → (editedGroup group (some "NewName") none).name = group.name) ∧
      (∀ s, some "NewName" = some s →
        (editedGroup group (some "NewName") none).name = sanitizeName s) ∧
      (∀ t, (none : Option String) = some t →
        (editedGroup group (some "NewName") none).clanChat = some (playerSanitize t)) ∧
      ((none : Option String) = none →
        (editedGroup group (some "NewName") none).clanChat = none) :=
  claim7_amended c7db 1 (some "NewName") none "c" c7result.1 c7result.2
    (by decide) (by decide) rfl

/-! ### Claim C8: `changeRole` -/

/-- Claim C8: on a group whose verification code matches, changing a member's role
to the role they already hold fails with a validation error; changing to a
different role succeeds, updates the membership row in place, and returns both the
old and the new role. -/
theorem claim8_changeRole (db : DB) (now : Int) (id : Nat) (username role code : String)
    (group : Group) (mp : Membership × Player)
    (hid : id ≠ 0) (hu : username ≠ "") (hr : role ≠ "") (hc : code ≠ "")
    (hg : db.groups.find? (fun g => g.id == id) = some group)
    (hv : verifyCode group.verificationHash code = true)
    (hm : membershipLookup db id username = some mp) :
    (mp.1.role = role →
      changeRole db now id username role code =
        Except.error ("\x27" ++ username ++ "\x27 already has the role of " ++ role ++ ".")) ∧
    (mp.1.role ≠ role → ∃ db',
      changeRole db now id username role code = Except.ok (db',
        { player := { id := mp.2.id, username := mp.2.username,
                      displayName := mp.2.displayName, type := mp.2.type,
                      updatedAt := mp.2.updatedAt, role := role },
          newRole := role, oldRole := mp.1.role }) ∧
      db'.memberships = db.memberships.map (fun r =>
        if r.groupId == mp.1.groupId && r.playerId == mp.1.playerId then
          { r with role := role } else r)) := by
  constructor
  · intro hrole
    rw [changeRole, if_neg hid, if_neg hu, if_neg hr, if_neg hc, hg]
    simp only [hv, Bool.not_true, Bool.false_eq_true, if_false, hm]
    rw [if_pos (by simp [hrole])]
  · intro hrole
    rw [changeRole, if_neg hid, if_neg hu, if_neg hr, if_neg hc, hg]
    simp only [hv, Bool.not_true, Bool.false_eq_true, if_false, hm]
    rw [if_neg (by simp [hrole])]
    exact ⟨_, rfl, rfl⟩

/-- Witness for C8 at a concrete group and member. -/
theorem claim8_witness :
    (changeRole c8db 7 1 "Bob" "member" "c" =
      Except.error ("\x27" ++ "Bob" ++ "\x27 already has the role of " ++ "member" ++ ".")) ∧
    (∃ db', changeRole c8db 7 1 "Bob" "leader" "c" = Except.ok (db',
        { player := { id := 1, username := "bob", displayName := "Bob", type := "unknown",
                      updatedAt := 0, role := "leader" },
          newRole := "leader", oldRole := "member" }) ∧
      db'.memberships = c8db.memberships.map (fun r =>
        if r.groupId == 1 && r.playerId == 1 then { r with role := "leader" } else r)) :=
  ⟨(claim8_changeRole c8db 7 1 "Bob" "member" "c" c8group c8pair
      (by decide) (by decide) (by decide) (by decide) rfl rfl rfl).1 rfl,
   (claim8_changeRole c8db 7 1 "Bob" "leader" "c" c8group c8pair
      (by decide) (by decide) (by decide) (by decide) rfl rfl rfl).2 (by decide)⟩

/-! ### Machinery about `findAllOrCreate`, `uniqBy` and the membership table -/

theorem find?_prefix_some {p : α → Bool} {l₁ l₂ : List α} {a : α}
    (hpre : l₁ <+: l₂) (h : l₁.find? p = some a) : l₂.find? p = some a := by
  obtain ⟨r, rfl⟩ := hpre
  rw [List.find?_append, h]
  rfl

theorem findAllOrCreate_tables : ∀ (db : DB) (us : List String),
    (findAllOrCreate db us).2.memberships = db.memberships ∧
    (findAllOrCreate db us).2.groups = db.groups ∧
    (findAllOrCreate db us).2.snapshots = db.snapshots
  | _, [] => ⟨rfl, rfl, rfl⟩
  | db, u :: us => by
    rw [findAllOrCreate]
    split
    · exact findAllOrCreate_tables db us
    · exact findAllOrCreate_tables _ us

theorem findAllOrCreate_players_front : ∀ (db : DB) (us : List String),
    db.players <+: (findAllOrCreate db us).2.players
  | _, [] => List.prefix_refl _
  | db, u :: us => by
    rw [findAllOrCreate]
    split
    · exact findAllOrCreate_players_front db us
    · exact List.IsPrefix.trans (List.prefix_append _ _)
        (findAllOrCreate_players_front (createPlayer db u) us)

theorem findAllOrCreate_mem_players : ∀ (db : DB) (us : List String),
    ∀ p ∈ (findAllOrCreate db us).1, p ∈ (findAllOrCreate db us).2.players
  | _, [] => by intro p hp; cases hp
  | db, u :: us => by
    rw [findAllOrCreate]
    split
    · rename_i p0 hfind
      intro p hp
      rcases List.mem_cons.mp hp with rfl | hp'
      · exact (findAllOrCreate_players_front db us).subset (List.mem_of_find?_eq_some hfind)
      · exact findAllOrCreate_mem_players db us p hp'
    · intro p hp
      rcases List.mem_cons.mp hp with rfl | hp'
      · exact (findAllOrCreate_players_front (createPlayer db u) us).subset
          (List.mem_append_right _ (by simp))
      · exact findAllOrCreate_mem_players (createPlayer db u) us p hp'

theorem findAllOrCreate_usernames : ∀ (db : DB) (us : List String),
    ((findAllOrCreate db us).1.map (fun p => p.username)) = us.map standardize
  | _, [] => rfl
  | db, u :: us => by
    rw [findAllOrCreate]
    split
    · rename_i p0 hfind
      have hp0 : p0.username = standardize u := by
        have := List.find?_some hfind
        simpa using this
      show p0.username :: _ = standardize u :: _
      rw [hp0, findAllOrCreate_usernames db us]
    · show (newPlayer db u).username :: _ = standardize u :: _
      rw [findAllOrCreate_usernames (createPlayer db u) us]
      rfl

theorem findAllOrCreate_length : ∀ (db : DB) (us : List String),
    (findAllOrCreate db us).1.length = us.length := by
  intro db us
  have := congrArg List.length (findAllOrCreate_usernames db us)
  simpa using this

theorem WFplayers_create {db : DB} {u : String}
    (hwf : WFplayers db)
    (hfind : db.players.find? (fun p => p.username == standardize u) = none) :
    WFplayers (createPlayer db u) := by
  obtain ⟨hids, husers, hbound⟩ := hwf
  refine ⟨?_, ?_, ?_⟩
  · rw [createPlayer]
    rw [List.map_append, List.nodup_append]
    refine ⟨hids, List.nodup_singleton _, ?_⟩
    intro a ha hb
    obtain ⟨p, hp, rfl⟩ := List.mem_map.mp ha
    have : p.id = db.nextPlayerId := by simpa [newPlayer] using hb
    exact absurd this (Nat.ne_of_lt (hbound p hp))
  · rw [createPlayer]
    rw [List.map_append, List.nodup_append]
    refine ⟨husers, List.nodup_singleton _, ?_⟩
    intro a ha hb
    obtain ⟨p, hp, rfl⟩ := List.mem_map.mp ha
    have hpu : p.username = standardize u := by simpa [newPlayer] using hb
    have := List.find?_eq_none.mp hfind p hp
    simp [hpu] at this
  · intro p hp
    rcases List.mem_append.mp hp with hp' | hp'
    · exact Nat.lt_trans (hbound p hp') (Nat.lt_succ_self _)
    · have : p = newPlayer db u := by simpa using hp'
      rw [this]
      exact Nat.lt_succ_self _

theorem findAllOrCreate_WF : ∀ (db : DB) (us : List String), WFplayers db →
    WFplayers (findAllOrCreate db us).2
  | _, [], hwf => hwf
  | db, u :: us, hwf => by
    rw [findAllOrCreate]
    split
    · exact findAllOrCreate_WF db us hwf
    · rename_i hfind
      exact findAllOrCreate_WF (createPlayer db u) us (WFplayers_create hwf hfind)

theorem findAllOrCreate_mem_players_src : ∀ (db : DB) (us : List String),
    ∀ p ∈ (findAllOrCreate db us).2.players, p ∈ db.players ∨ db.nextPlayerId ≤ p.id
  | _, [], _, hp => Or.inl hp
  | db, u :: us, p, hp => by
    rw [findAllOrCreate] at hp
    revert hp
    split
    · intro hp
      exact findAllOrCreate_mem_players_src db us p hp
    · intro hp
      rcases findAllOrCreate_mem_players_src (createPlayer db u) us p hp with hp' | hp'
      · rcases List.mem_append.mp hp' with h1 | h1
        · exact Or.inl h1
        · right
          have : p = newPlayer db u := by simpa using h1
          rw [this]
          exact Nat.le_refl _
      · exact Or.inr (Nat.le_of_lt hp')

theorem findAllOrCreate_ids_nodup : ∀ (db : DB) (us : List String), WFplayers db →
    (us.map standardize).Nodup →
    ((findAllOrCreate db us).1.map (fun p => p.id)).Nodup
  | _, [], _, _ => List.nodup_nil
  | db, u :: us, hwf, hnodup => by
    have hnotin : standardize u ∉ us.map standardize := (List.nodup_cons.mp hnodup).1
    have htail : (us.map standardize).Nodup := (List.nodup_cons.mp hnodup).2
    rw [findAllOrCreate]
    split
    · rename_i p0 hfind
      rw [List.map_cons, List.nodup_cons]
      refine ⟨?_, findAllOrCreate_ids_nodup db us hwf htail⟩
      intro hmem
      obtain ⟨p', hp', hideq⟩ := List.mem_map.mp hmem
      have hfinalWF := findAllOrCreate_WF db us hwf
      have hp0mem : p0 ∈ (findAllOrCreate db us).2.players :=
        (findAllOrCreate_players_front db us).subset (List.mem_of_find?_eq_some hfind)
      have hp'mem : p' ∈ (findAllOrCreate db us).2.players :=
        findAllOrCreate_mem_players db us p' hp'
      have heq : p' = p0 := List.inj_on_of_nodup_map hfinalWF.1 hp'mem hp0mem hideq
      have hp0u : p0.username = standardize u := by
        have := List.find?_some hfind
        simpa using this
      have : standardize u ∈ us.map standardize := by
        rw [← findAllOrCreate_usernames db us]
        rw [← hp0u, ← heq]
        exact List.mem_map_of_mem _ hp'
      exact hnotin this
    · rename_i hfind
      rw [List.map_cons, List.nodup_cons]
      have hwf1 := WFplayers_create hwf hfind
      refine ⟨?_, findAllOrCreate_ids_nodup (createPlayer db u) us hwf1 htail⟩
      intro hmem
      obtain ⟨p', hp', hideq⟩ := List.mem_map.mp hmem
      have hp'mem := findAllOrCreate_mem_players (createPlayer db u) us p' hp'
      rcases findAllOrCreate_mem_players_src (createPlayer db u) us p' hp'mem with hsrc | hsrc
      · rcases List.mem_append.mp hsrc with h1 | h1
        · exact absurd hideq (Nat.ne_of_lt (hwf.2.2 p' h1))
        · have hp'eq : p' = newPlayer db u := by simpa using h1
          have : standardize u ∈ us.map standardize := by
            rw [← findAllOrCreate_usernames (createPlayer db u) us]
            have hpu : p'.username = standardize u := by rw [hp'eq]; rfl
            rw [← hpu]
            exact List.mem_map_of_mem _ hp'
          exact hnotin this
      · have : db.nextPlayerId + 1 ≤ p'.id := hsrc
        have : (newPlayer db u).id = db.nextPlayerId := rfl
        omega

theorem findAllOrCreate_mem_of_exists : ∀ (db : DB) (us : List String),
    (∀ u ∈ us, ∃ q ∈ db.players, q.username = standardize u) →
    ∀ p ∈ (findAllOrCreate db us).1,
      p ∈ db.players ∧ ∃ u ∈ us, p.username = standardize u
  | _, [], _, _, hp => by cases hp
  | db, u :: us, hex, p, hp => by
    obtain ⟨q, hq, hqu⟩ := hex u (List.mem_cons_self u us)
    rcases hfind : db.players.find? (fun x => x.username == standardize u) with _ | p0
    · exfalso
      have := List.find?_eq_none.mp hfind q hq
      simp [hqu] at this
    · rw [findAllOrCreate, hfind] at hp
      rcases List.mem_cons.mp hp with rfl | hp'
      · refine ⟨List.mem_of_find?_eq_some hfind, u, List.mem_cons_self u us, ?_⟩
        simpa using List.find?_some hfind
      · have hex' : ∀ v ∈ us, ∃ q ∈ db.players, q.username = standardize v :=
          fun v hv => hex v (List.mem_cons_of_mem u hv)
        obtain ⟨hmem, v, hv, hpv⟩ := findAllOrCreate_mem_of_exists db us hex' p hp'
        exact ⟨hmem, v, List.mem_cons_of_mem u hv, hpv⟩

theorem uniqByAux_keys_nodup [DecidableEq β] (key : α → β) :
    ∀ (l : List α) (seen : List β),
      ((uniqByAux key l seen).map key).Nodup ∧
        ∀ b ∈ (uniqByAux key l seen).map key, b ∉ seen
  | [], _ => ⟨List.nodup_nil, by intro b hb; cases hb⟩
  | x :: xs, seen => by
    rw [uniqByAux]
    split
    · exact uniqByAux_keys_nodup key xs seen
    · rename_i hnot
      obtain ⟨hnd, hnotin⟩ := uniqByAux_keys_nodup key xs (key x :: seen)
      rw [List.map_cons, List.nodup_cons]
      refine ⟨⟨?_, hnd⟩, ?_⟩
      · intro hmem
        exact hnotin _ hmem (List.mem_cons_self _ _)
      · intro b hb
        rcases List.mem_cons.mp hb with rfl | hb'
        · exact hnot
        · intro hseen
          exact hnotin b hb' (List.mem_cons_of_mem _ hseen)

theorem uniqBy_keys_nodup [DecidableEq β] (l : List α) (key : α → β) :
    ((uniqBy l key).map key).Nodup :=
  (uniqByAux_keys_nodup key l []).1

theorem find?_id_eq_self {ps : List Player} (hnodup : (ps.map (fun p => p.id)).Nodup) :
    ∀ {p : Player}, p ∈ ps → ps.find? (fun q => q.id == p.id) = some p := by
  induction ps with
  | nil => intro p hp; cases hp
  | cons a t ih =>
    intro p hp
    by_cases ha : (a.id == p.id) = true
    · have heq : a = p :=
        List.inj_on_of_nodup_map hnodup (List.mem_cons_self a t) hp (by simpa using ha)
      rw [List.find?_cons, ha, heq]
    · rcases List.mem_cons.mp hp with rfl | hp'
      · exact absurd (by simp) ha
      · rw [List.find?_cons]
        have hfalse : (a.id == p.id) = false := Bool.eq_false_iff.mpr ha
        rw [hfalse]
        exact ih (List.nodup_cons.mp (List.map_cons _ a t ▸ hnodup)).2 hp'

theorem filterMap_congr_some {f : α → Option β} {g : α → β} :
    ∀ {l : List α}, (∀ x ∈ l, f x = some (g x)) → l.filterMap f = l.map g := by
  intro l
  induction l with
  | nil => intro _; rfl
  | cons a t ih =>
    intro h
    rw [List.filterMap_cons, h a (List.mem_cons_self a t), List.map_cons,
      ih (fun x hx => h x (List.mem_cons_of_mem a hx))]

theorem enumFrom_map_congr {α β γ δ : Type} (r : Nat → γ → δ) :
    ∀ (n : Nat) (l₁ : List α) (l₂ : List β) (f : α → γ) (g : β → γ),
      l₁.map f = l₂.map g →
      (l₁.enumFrom n).map (fun ip => r ip.1 (f ip.2)) =
        (l₂.enumFrom n).map (fun ip => r ip.1 (g ip.2))
  | _, [], l₂, f, g, h => by
    have hmap : l₂.map g = [] := by
      rw [← h]
      rfl
    have hl2 : l₂ = [] := List.map_eq_nil_iff.mp hmap
    rw [hl2]
    rfl
  | n, a :: t₁, l₂, f, g, h => by
    cases l₂ with
    | nil => exact absurd h (by simp)
    | cons b t₂ =>
      simp only [List.map_cons, List.cons.injEq] at h
      rw [show List.enumFrom n (a :: t₁) = (n, a) :: List.enumFrom (n + 1) t₁ from rfl,
        show List.enumFrom n (b :: t₂) = (n, b) :: List.enumFrom (n + 1) t₂ from rfl,
        List.map_cons, List.map_cons,
        enumFrom_map_congr r (n + 1) t₁ t₂ f g h.2]
      show r n (f a) :: _ = r n (g b) :: _
      rw [h.1]

theorem bulkCreate_append : ∀ (rows tbl : List Membership),
    (∀ r ∈ rows, ∀ t ∈ tbl, samePair t r = false) →
    ((rows.map (fun r => (r.groupId, r.playerId))).Nodup) →
    bulkCreateIgnoreDuplicates tbl rows = tbl ++ rows
  | [], tbl, _, _ => (List.append_nil tbl).symm
  | r :: rows, tbl, hdisj, hnodup => by
    show (rows.foldl insertIfAbsent (insertIfAbsent tbl r)) = tbl ++ r :: rows
    have hins : insertIfAbsent tbl r = tbl ++ [r] := by
      rw [insertIfAbsent, if_neg]
      intro hany
      obtain ⟨t, ht, hpt⟩ := List.any_eq_true.mp hany
      exact absurd hpt (by simp [hdisj r (List.mem_cons_self r rows) t ht])
    rw [hins]
    have hdisj' : ∀ r' ∈ rows, ∀ t ∈ tbl ++ [r], samePair t r' = false := by
      intro r' hr' t ht
      rcases List.mem_append.mp ht with ht' | ht'
      · exact hdisj r' (List.mem_cons_of_mem r hr') t ht'
      · have hteq : t = r := by simpa using ht'
        have hpairne : (r.groupId, r.playerId) ≠ (r'.groupId, r'.playerId) := by
          intro hpair
          have hmemmap : (r.groupId, r.playerId) ∈
              rows.map (fun r => (r.groupId, r.playerId)) := by
            rw [hpair]
            exact List.mem_map_of_mem _ hr'
          exact (List.nodup_cons.mp hnodup).1 hmemmap
        rw [hteq]
        rw [samePair]
        by_cases h1 : r.groupId = r'.groupId
        · by_cases h2 : r.playerId = r'.playerId
          · exact absurd (by rw [h1, h2]) hpairne
          · simp [h2]
        · simp [h1]
    have := bulkCreate_append rows (tbl ++ [r]) hdisj' (List.nodup_cons.mp hnodup).2
    rw [bulkCreateIgnoreDuplicates] at this
    rw [this, List.append_assoc]
    rfl

/-! ### Claim C5: `setMembers` followed by `getMembers` -/

theorem enum_map_snd_comp {α β : Type} (l : List α) (f : α → β) :
    l.enum.map (fun ip => f ip.2) = l.map f := by
  rw [show (fun ip : Nat × α => f ip.2) = f ∘ Prod.snd from rfl, ← List.map_map,
    List.enum_map_snd]

theorem getMembers_bulk (dbF : DB) (gid : Nat) (rows : List Membership)
    (hrows_g : ∀ r ∈ rows, r.groupId = gid)
    (hnodupP : (rows.map (fun r => (r.groupId, r.playerId))).Nodup) :
    getMembers (setMembersDB dbF gid rows) gid = rows.filterMap (joinMember dbF.players) := by
  have hdisj : ∀ r ∈ rows, ∀ t ∈ dbF.memberships.filter (fun m => m.groupId != gid),
      samePair t r = false := by
    intro r hr t ht
    have htne : t.groupId ≠ gid := by simpa using (List.mem_filter.mp ht).2
    have hrg : r.groupId = gid := hrows_g r hr
    rw [samePair]
    have hfalse : (t.groupId == r.groupId) = false := by
      rw [hrg]
      simpa using htne
    rw [hfalse]
    rfl
  rw [getMembers]
  rw [show (setMembersDB dbF gid rows).players = dbF.players from rfl]
  rw [show (setMembersDB dbF gid rows).memberships = bulkCreateIgnoreDuplicates
    (dbF.memberships.filter (fun m => m.groupId != gid)) rows from rfl]
  rw [bulkCreate_append rows _ hdisj hnodupP]
  rw [List.filter_append]
  rw [List.filter_eq_nil_iff.mpr (fun t ht => by
    simpa using (List.mem_filter.mp ht).2)]
  rw [List.filter_eq_self.mpr (fun r hr => by simp [hrows_g r hr])]
  rfl

/-- Amended claim C5: after `setMembers(group, members)` on a well-formed database,
`getMembers` returns the case-insensitively deduplicated usernames (standardized),
but each role is read POSITIONALLY from the original members array at the index of
the username in the deduplicated list — so roles pair up with their usernames only
when the input has no case-insensitive duplicates. -/
theorem claim5_amended (db : DB) (g : Group) (members : List InputMember)
    (hwf : WFplayers db) (db' : DB) (res : List MemberRec)
    (h : setMembers db (some g) members = Except.ok (db', res)) :
    res.map (fun m => (m.username, m.role)) =
      ((uniqBy (members.map (fun m => m.username)) standardize).enum).map
        (fun iu => (standardize iu.2, roleAtIdx members iu.1)) := by
  rw [setMembers] at h
  cases h
  generalize hU : uniqBy (members.map (fun m => m.username)) standardize = U at *
  have hkeys : (U.map standardize).Nodup := by
    rw [← hU]
    exact uniqBy_keys_nodup _ _
  have hwfF : WFplayers (findAllOrCreate db U).2 := findAllOrCreate_WF db U hwf
  have hidsN : ((findAllOrCreate db U).1.map (fun p => p.id)).Nodup :=
    findAllOrCreate_ids_nodup db U hwf hkeys
  have husers : ((findAllOrCreate db U).1.map (fun p => p.username)) = U.map standardize :=
    findAllOrCreate_usernames db U
  have hrows_g : ∀ r ∈ (findAllOrCreate db U).1.enum.map (mkMembership g.id members),
      r.groupId = g.id := by
    intro r hr
    obtain ⟨ip, _, rfl⟩ := List.mem_map.mp hr
    rfl
  have hpairsN : (((findAllOrCreate db U).1.enum.map (mkMembership g.id members)).map
      (fun r => (r.groupId, r.playerId))).Nodup := by
    rw [List.map_map]
    show ((findAllOrCreate db U).1.enum.map
      (fun ip => ((fun p : Player => ((g.id, p.id) : Nat × Nat)) ip.2))).Nodup
    rw [enum_map_snd_comp (findAllOrCreate db U).1 (fun p => ((g.id, p.id) : Nat × Nat))]
    rw [show (fun p : Player => ((g.id, p.id) : Nat × Nat))
      = (fun i => ((g.id, i) : Nat × Nat)) ∘ (fun p => p.id) from rfl, ← List.map_map]
    exact List.Nodup.map (fun a b hab => by simpa using hab) hidsN
  rw [getMembers_bulk (findAllOrCreate db U).2 g.id _ hrows_g hpairsN]
  rw [List.filterMap_map]
  have hjoin : ∀ ip ∈ (findAllOrCreate db U).1.enum,
      (joinMember (findAllOrCreate db U).2.players ∘ mkMembership g.id members) ip
      = some { id := ip.2.id, username := ip.2.username, displayName := ip.2.displayName,
               type := ip.2.type, updatedAt := ip.2.updatedAt,
               role := roleAtIdx members ip.1 : MemberRec } := by
    intro ip hip
    have hmem : ip.2 ∈ (findAllOrCreate db U).1 := by
      have hmem0 : ip.2 ∈ (findAllOrCreate db U).1.enum.map Prod.snd :=
        List.mem_map_of_mem Prod.snd hip
      rwa [List.enum_map_snd] at hmem0
    have hmemF : ip.2 ∈ (findAllOrCreate db U).2.players :=
      findAllOrCreate_mem_players db U ip.2 hmem
    show joinMember (findAllOrCreate db U).2.players (mkMembership g.id members ip) = _
    rw [joinMember]
    rw [show (mkMembership g.id members ip).playerId = ip.2.id from rfl]
    rw [find?_id_eq_self hwfF.1 hmemF]
    rfl
  rw [filterMap_congr_some hjoin]
  rw [List.map_map]
  exact enumFrom_map_congr (fun i nm => (nm, roleAtIdx members i)) 0
    (findAllOrCreate db U).1 U (fun p => p.username) standardize husers

/-- Counterexample to claim C5: a case-insensitive duplicate shifts the positional
role lookup, so "Beta" (given role "leader") comes back with role "member". -/
theorem claim5_counterexample :
    c5pairs = [("alpha", "leader"), ("beta", "member")] ∧
    setThenGetSpecPairs c5input = [("alpha", "leader"), ("beta", "leader")] ∧
    c5pairs ≠ setThenGetSpecPairs c5input := by decide

/-- Witness for the amended C5 at the concrete duplicate-bearing input. -/
theorem claim5_witness :
    WFplayers c5db ∧
    c5result.2.map (fun m => (m.username, m.role)) =
      ((uniqBy (c5input.map (fun m => m.username)) standardize).enum).map
        (fun iu => (standardize iu.2, roleAtIdx c5input iu.1)) :=
  ⟨⟨by decide, by decide, by decide⟩,
   claim5_amended c5db c5g c5input ⟨by decide, by decide, by decide⟩
     c5result.1 c5result.2 rfl⟩

/-! ### Claim C6: the (groupId, playerId) uniqueness invariant -/

theorem pairs_insertIfAbsent {tbl : List Membership} (row : Membership)
    (h : (tbl.map (fun m => (m.groupId, m.playerId))).Nodup) :
    ((insertIfAbsent tbl row).map (fun m => (m.groupId, m.playerId))).Nodup := by
  rw [insertIfAbsent]
  split
  · exact h
  · rename_i hany
    rw [List.map_append, List.nodup_append]
    refine ⟨h, List.nodup_singleton _, ?_⟩
    intro a ha hb
    obtain ⟨t, ht, rfl⟩ := List.mem_map.mp ha
    have hb' : t.groupId = row.groupId ∧ t.playerId = row.playerId := by
      have := List.mem_singleton.mp hb
      simpa [Prod.mk.injEq] using this
    apply hany
    refine List.any_eq_true.mpr ⟨t, ht, ?_⟩
    rw [samePair]
    simp [hb'.1, hb'.2]

theorem pairs_fold_insert {β : Type} (f : β → Membership) :
    ∀ (ps : List β) (tbl : List Membership),
      ((tbl.map (fun m => (m.groupId, m.playerId))).Nodup) →
      (((ps.foldl (fun t p => insertIfAbsent t (f p)) tbl).map
        (fun m => (m.groupId, m.playerId))).Nodup)
  | [], _, h => h
  | p :: ps, tbl, h =>
    pairs_fold_insert f ps (insertIfAbsent tbl (f p)) (pairs_insertIfAbsent (f p) h)

theorem pairs_filter {tbl : List Membership} (q : Membership → Bool)
    (h : (tbl.map (fun m => (m.groupId, m.playerId))).Nodup) :
    (((tbl.filter q).map (fun m => (m.groupId, m.playerId))).Nodup) :=
  h.sublist ((List.filter_sublist tbl).map _)

theorem pairs_map_preserve {tbl : List Membership} (f : Membership → Membership)
    (hf : ∀ m, (f m).groupId = m.groupId ∧ (f m).playerId = m.playerId)
    (h : (tbl.map (fun m => (m.groupId, m.playerId))).Nodup) :
    (((tbl.map f).map (fun m => (m.groupId, m.playerId))).Nodup) := by
  rw [List.map_map]
  have hfun : ((fun m : Membership => (m.groupId, m.playerId)) ∘ f)
      = (fun m : Membership => (m.groupId, m.playerId)) := by
    funext m
    show ((f m).groupId, (f m).playerId) = (m.groupId, m.playerId)
    rw [(hf m).1, (hf m).2]
  rw [hfun]
  exact h

theorem pairs_upsertRole {tbl : List Membership} (gid pid : Nat) (role : String)
    (h : (tbl.map (fun m => (m.groupId, m.playerId))).Nodup) :
    ((upsertRole tbl gid pid role).map (fun m => (m.groupId, m.playerId))).Nodup := by
  rw [upsertRole]
  split
  · refine pairs_map_preserve _ (fun m => ?_) h
    by_cases hc : (m.groupId == gid && m.playerId == pid) = true
    · rw [if_pos hc]
      exact ⟨rfl, rfl⟩
    · rw [if_neg hc]
      exact ⟨rfl, rfl⟩
  · rename_i hany
    rw [List.map_append, List.nodup_append]
    refine ⟨h, List.nodup_singleton _, ?_⟩
    intro a ha hb
    obtain ⟨t, ht, rfl⟩ := List.mem_map.mp ha
    have hb' : t.groupId = gid ∧ t.playerId = pid := by
      have := List.mem_singleton.mp hb
      simpa [Prod.mk.injEq] using this
    apply hany
    exact List.any_eq_true.mpr ⟨t, ht, by simp [hb'.1, hb'.2]⟩

theorem pairs_fold_upsert {β : Type} (key : β → Nat) (gid : Nat) (role : String) :
    ∀ (ms : List β) (tbl : List Membership),
      ((tbl.map (fun m => (m.groupId, m.playerId))).Nodup) →
      (((ms.foldl (fun t m => upsertRole t gid (key m) role) tbl).map
        (fun m => (m.groupId, m.playerId))).Nodup)
  | [], _, h => h
  | m :: ms, _, h =>
    pairs_fold_upsert key gid role ms _ (pairs_upsertRole gid (key m) role h)

theorem uniqPairs_setMembers {db : DB} (hdb : uniqPairs db) (g : Group)
    (members : List InputMember) {db' : DB} {res : List MemberRec}
    (h : setMembers db (some g) members = Except.ok (db', res)) : uniqPairs db' := by
  rw [setMembers] at h
  cases h
  show ((bulkCreateIgnoreDuplicates _ _).map (fun m => (m.groupId, m.playerId))).Nodup
  refine pairs_fold_insert (fun r => r) _ _ ?_
  refine pairs_filter _ ?_
  rw [(findAllOrCreate_tables db _).1]
  exact hdb

theorem mem_existingIds {db : DB} {gid : Nat} {r : Membership} {q : Player}
    (hr : r ∈ db.memberships) (hgid : r.groupId = gid) (hq : q ∈ db.players)
    (hpid : r.playerId = q.id) :
    q.id ∈ (getMembers db gid).map (fun m => m.id) := by
  rcases hfind : db.players.find? (fun p => p.id == r.playerId) with _ | p'
  · exfalso
    have := List.find?_eq_none.mp hfind q hq
    simp [hpid] at this
  · have hrec : joinMember db.players r = some
        ({ id := p'.id, username := p'.username, displayName := p'.displayName,
           type := p'.type, updatedAt := p'.updatedAt, role := r.role } : MemberRec) := by
      rw [joinMember, hfind]
      rfl
    have hmem : ({ id := p'.id, username := p'.username, displayName := p'.displayName,
                   type := p'.type, updatedAt := p'.updatedAt,
                   role := r.role } : MemberRec) ∈ getMembers db gid := by
      refine List.mem_filterMap.mpr ⟨r, ?_, hrec⟩
      exact List.mem_filter.mpr ⟨hr, by simp [hgid]⟩
    have hp'id : p'.id = r.playerId := by simpa using List.find?_some hfind
    have hidmem := List.mem_map_of_mem (fun m : MemberRec => m.id) hmem
    simpa [hp'id, ← hpid] using hidmem

set_option maxHeartbeats 1600000 in
/-- Claim C6: every mutation preserves the at-most-once invariant on
(groupId, playerId) membership pairs, and `addMembers` fails with a validation
error when every given username is already a member of the group. -/
theorem claim6_membership_unique (db : DB) (hdb : uniqPairs db) :
    (∀ g members db' res, setMembers db (some g) members = Except.ok (db', res) →
      uniqPairs db') ∧
    (∀ now id code members db' res, addMembers db now id code members = Except.ok (db', res) →
      uniqPairs db') ∧
    (∀ now id code usernames db' n,
      removeMembers db now id code usernames = Except.ok (db', n) → uniqPairs db') ∧
    (∀ now id u r code db' res, changeRole db now id u r code = Except.ok (db', res) →
      uniqPairs db') ∧
    (∀ id name cc code ms db' res, edit db id name cc code ms = Except.ok (db', res) →
      uniqPairs db') ∧
    (∀ name cc ms code db' res, create db name cc ms code = Except.ok (db', res) →
      uniqPairs db') ∧
    (∀ id code db' nm, destroy db id code = Except.ok (db', nm) → uniqPairs db') ∧
    (∀ now id code members, WFplayers db →
      (∀ mem ∈ members, ∃ p ∈ db.players, p.username = standardize mem.username ∧
        ∃ r ∈ db.memberships, r.groupId = id ∧ r.playerId = p.id) →
      ∃ e, addMembers db now id code members = Except.error e) := by
  refine ⟨?_, ?_, ?_, ?_, ?_, ?_, ?_, ?_⟩
  · intro g members db' res h
    exact uniqPairs_setMembers hdb g members h
  · intro now id code members db' res h
    rw [addMembers] at h
    split at h
    · exact Except.noConfusion h
    split at h
    · exact Except.noConfusion h
    split at h
    · exact Except.noConfusion h
    split at h
    · exact Except.noConfusion h
    split at h
    · exact Except.noConfusion h
    rename_i group hfind
    split at h
    · exact Except.noConfusion h
    simp only [] at h
    split at h
    · exact Except.noConfusion h
    have h2 : ((addAssociations
        (findAllOrCreate db (members.map (fun m => m.username))).2.memberships group.id
        ((findAllOrCreate db (members.map (fun m => m.username))).1.filter
          (fun p => !(((getMembers db group.id).map (fun m => m.id)).contains p.id)))).map
        (fun m => (m.groupId, m.playerId))).Nodup := by
      rw [addAssociations]
      refine pairs_fold_insert _ _ _ ?_
      rw [(findAllOrCreate_tables db _).1]
      exact hdb
    split at h
    · cases h
      exact pairs_fold_upsert _ _ _ _ _ h2
    · cases h
      exact h2
  · intro now id code usernames db' n h
    rw [removeMembers] at h
    split at h
    · exact Except.noConfusion h
    split at h
    · exact Except.noConfusion h
    split at h
    · exact Except.noConfusion h
    split at h
    · exact Except.noConfusion h
    split at h
    · exact Except.noConfusion h
    simp only [] at h
    split at h
    · exact Except.noConfusion h
    split at h
    · exact Except.noConfusion h
    cases h
    exact pairs_filter _ hdb
  · intro now id u r code db' res h
    rw [changeRole] at h
    split at h
    · exact Except.noConfusion h
    split at h
    · exact Except.noConfusion h
    split at h
    · exact Except.noConfusion h
    split at h
    · exact Except.noConfusion h
    split at h
    · exact Except.noConfusion h
    rename_i group hfind
    split at h
    · exact Except.noConfusion h
    split at h
    · exact Except.noConfusion h
    rename_i mp hmp
    split at h
    · exact Except.noConfusion h
    simp only [] at h
    cases h
    refine pairs_map_preserve _ (fun m => ?_) hdb
    by_cases hc : (m.groupId == mp.1.groupId && m.playerId == mp.1.playerId) = true
    · rw [if_pos hc]
      exact ⟨rfl, rfl⟩
    · rw [if_neg hc]
      exact ⟨rfl, rfl⟩
  · intro id name cc code ms db' res h
    rw [edit.eq_def] at h
    cases ms with
    | none =>
      split at h
      · exact Except.noConfusion h
      split at h
      · exact Except.noConfusion h
      split at h
      · exact Except.noConfusion h
      simp only [] at h
      split at h
      · exact Except.noConfusion h
      split at h
      · exact Except.noConfusion h
      split at h
      · exact Except.noConfusion h
      split at h
      · cases h
        exact hdb
      · cases h
        exact hdb
    | some msl =>
      split at h
      · exact Except.noConfusion h
      split at h
      · exact Except.noConfusion h
      split at h
      · exact Except.noConfusion h
      simp only [] at h
      split at h
      · exact Except.noConfusion h
      split at h
      · exact Except.noConfusion h
      rename_i group hfind
      split at h
      · exact Except.noConfusion h
      split at h
      · exact Except.noConfusion h
      split at h
      · exact Except.noConfusion h
      rename_i db1 groupMembers hset
      split at h
      · cases h
        have h1 := uniqPairs_setMembers hdb group msl hset
        exact h1
      · cases h
        have h1 := uniqPairs_setMembers hdb group msl hset
        exact h1
  · intro name cc ms code db' res h
    rw [create.eq_def] at h
    cases ms with
    | none =>
      split at h
      · exact Except.noConfusion h
      simp only [] at h
      split at h
      · exact Except.noConfusion h
      cases h
      exact hdb
    | some msl =>
      split at h
      · exact Except.noConfusion h
      simp only [] at h
      split at h
      · exact Except.noConfusion h
      split at h
      · exact Except.noConfusion h
      split at h
      · exact Except.noConfusion h
      split at h
      · exact Except.noConfusion h
      rename_i db2 newMembers hset
      cases h
      refine uniqPairs_setMembers ?_ _ msl hset
      exact hdb
  · intro id code db' nm h
    rw [destroy] at h
    split at h
    · exact Except.noConfusion h
    split at h
    · exact Except.noConfusion h
    split at h
    · exact Except.noConfusion h
    split at h
    · exact Except.noConfusion h
    cases h
    exact pairs_filter _ hdb
  · intro now id code members hwfp hex
    rw [addMembers]
    split
    · exact ⟨_, rfl⟩
    split
    · exact ⟨_, rfl⟩
    split
    · exact ⟨_, rfl⟩
    split
    · exact ⟨_, rfl⟩
    split
    · exact ⟨_, rfl⟩
    rename_i group hfind
    split
    · exact ⟨_, rfl⟩
    have hgid : group.id = id := by simpa using List.find?_some hfind
    have hall : ∀ p ∈ (findAllOrCreate db (members.map (fun m => m.username))).1,
        ¬((!(((getMembers db group.id).map (fun m => m.id)).contains p.id)) = true) := by
      intro p hp
      have hex' : ∀ u ∈ members.map (fun m => m.username),
          ∃ q ∈ db.players, q.username = standardize u := by
        intro u hu
        obtain ⟨mem, hmem, rfl⟩ := List.mem_map.mp hu
        obtain ⟨q, hq, hqu, _⟩ := hex mem hmem
        exact ⟨q, hq, hqu⟩
      obtain ⟨hpdb, u, hu, hpu⟩ := findAllOrCreate_mem_of_exists db _ hex' p hp
      obtain ⟨mem, hmem, rfl⟩ := List.mem_map.mp hu
      obtain ⟨q, hq, hqu, r, hr, hrg, hrp⟩ := hex mem hmem
      have hpq : p = q :=
        List.inj_on_of_nodup_map hwfp.2.1 hpdb hq (by rw [hpu, hqu])
      have hql : q.id ∈ (getMembers db group.id).map (fun m => m.id) :=
        mem_existingIds hr (by rw [hrg, hgid]) hq hrp
      rw [hpq]
      simpa using hql
    refine ⟨"All players given are already members.", ?_⟩
    simp only []
    rw [List.filter_eq_nil_iff.mpr hall]
    simp

/-- Witness for C6: preservation at a concrete `setMembers` run and the
all-already-members failure at a concrete `addMembers` call. -/
theorem claim6_witness :
    uniqPairs c8db ∧ uniqPairs w6setResult.1 ∧
    (∃ e, addMembers c8db 7 1 "c" [{ username := "Bob", role := none }] = Except.error e) :=
  ⟨by decide,
   (claim6_membership_unique c8db (by decide)).1 c8group
     [{ username := "Alice", role := some "leader" }, { username := "bob", role := none }]
     w6setResult.1 w6setResult.2 rfl,
   (claim6_membership_unique c8db (by decide)).2.2.2.2.2.2.2 7 1 "c"
     [{ username := "Bob", role := none }] ⟨by decide, by decide, by decide⟩
     (by decide)⟩

end GroupService

